import Mathlib

/-!
# Verification of the exam-sim discussion scraping & normalization pipeline

Shallow embedding of the pure text-processing core of the repository:

* `examtopics_helper/scrape.py` — answer-label extraction, question-text
  cleanup, top-voted-comment selection, discussion-page parsing (over an
  abstraction of the BeautifulSoup selector results);
* `examtopics_helper/scraper_export.py` — choice-id assignment, record
  construction, defensive normalization, question-set export;
* `examtopics_helper/question_set.py` — the QuestionSet document loader;
* `question_set_tools/question_set_tools/cli.py` — chunked export.

Python strings are embedded as `List Char` (wrapped in `String` at the
record boundaries); Python regex operations are embedded as hand-rolled
scanners that follow the leftmost / greedy semantics of the `re` module on
the concrete patterns used by the source (each scanner's doc comment names
the pattern it models).  All data handled by the pipeline is text, so the
ASCII whitespace set of `str.strip()` / `\s` is used.
-/

namespace ExamSim

/-- The whitespace characters recognised by Python's `str.strip()` and `\s`
(ASCII range, which covers the scraped data): space, tab, newline, carriage
return, vertical tab, form feed. -/
def isPySpace (c : Char) : Bool :=
  c == ' ' || c == '\t' || c == '\n' || c == '\r' || c == '\x0b' || c == '\x0c'

/-- Python `\w` (ASCII range): letters, digits, underscore. -/
def isWordChar (c : Char) : Bool :=
  c.isAlphanum || c == '_'

/-- Remove leading whitespace (`str.lstrip()`). -/
def stripLeading (l : List Char) : List Char :=
  l.dropWhile isPySpace

/-- Remove trailing whitespace (`str.rstrip()`). -/
def stripTrailing (l : List Char) : List Char :=
  (l.reverse.dropWhile isPySpace).reverse

/-- Python `str.strip()` on a character list. -/
def pyStripList (l : List Char) : List Char :=
  stripTrailing (stripLeading l)

/-- Python `str.strip()`. -/
def pyStrip (s : String) : String :=
  ⟨pyStripList s.data⟩

/-- Case-insensitive literal matching: if `pat` (given lowercase) is a
case-insensitive prefix of `s`, return the rest of `s`.  Models a literal
word inside a pattern compiled with `re.I`. -/
def matchCI : List Char → List Char → Option (List Char)
  | [], s => some s
  | _ :: _, [] => none
  | p :: ps, c :: cs => if p == c.toLower then matchCI ps cs else none

/-- `\s*`: skip the maximal whitespace run (the greedy run is forced
because every continuation in the source's patterns starts with a
non-whitespace literal). -/
def skipWs (l : List Char) : List Char :=
  l.dropWhile isPySpace

/-- Match `Suggested\s*Answer\s*:\s*([A-Z][A-Z\s,]*)` (resp. `Correct …`,
both under `re.I`) anchored at the start of `s`; `word` is the lowercase
first literal.  Returns the capture group: the first letter followed by the
greedy run of letters / whitespace / commas. -/
def matchAnswerMarker (word : List Char) (s : List Char) : Option (List Char) :=
  match matchCI word s with
  | none => none
  | some r1 =>
    match matchCI "answer".data (skipWs r1) with
    | none => none
    | some r2 =>
      match skipWs r2 with
      | ':' :: r3 =>
        match skipWs r3 with
        | c :: r4 =>
          if c.isAlpha then
            some (c :: r4.takeWhile (fun d => d.isAlpha || isPySpace d || d == ','))
          else none
        | [] => none
      | _ => none

/-- `re.search` for the answer marker: try the anchored match at every
position, leftmost success wins. -/
def searchAnswerMarker (word : List Char) : List Char → Option (List Char)
  | [] => none
  | c :: cs =>
    match matchAnswerMarker word (c :: cs) with
    | some cap => some cap
    | none => searchAnswerMarker word cs

/-- First-seen-order deduplication of characters (the `seen` set loop of
`_extract_answer_labels` / `normalize_question_dict`). -/
def dedupChars : List Char → List Char → List Char
  | [], _ => []
  | c :: cs, seen => if c ∈ seen then dedupChars cs seen else c :: dedupChars cs (c :: seen)

/-- `raw.upper()` followed by `re.findall(r"[A-Z]", raw)`: the letters of
the capture, uppercased, in order. -/
def lettersOf (cap : List Char) : List Char :=
  (cap.filter Char.isAlpha).map Char.toUpper

/-- The label-extraction core shared by `_extract_answer_labels`
(scrape.py lines 132–147) and `normalize_question_dict`
(scraper_export.py lines 59–71): search for `Suggested Answer:` first,
otherwise `Correct Answer:`, and return the deduplicated uppercase letters
of the capture in first-seen order, as single-letter strings. -/
def answerLabelsList (s : List Char) : List String :=
  match searchAnswerMarker "suggested".data s with
  | some cap => (dedupChars (lettersOf cap) []).map Char.toString
  | none =>
    match searchAnswerMarker "correct".data s with
    | some cap => (dedupChars (lettersOf cap) []).map Char.toString
    | none => []

/-- `_extract_answer_labels` (scrape.py lines 119–147): the `if not text`
guard, then the marker search. -/
def extract_answer_labels (text : String) : List String :=
  if text = "" then [] else answerLabelsList text.data

/-- `.*$` without `re.M`/`re.S`: `.` cannot cross a newline and `$` only
matches at the end of the string or just before a final newline, so the
rest of the string is consumed by `.*$` iff it contains no newline other
than a final one. -/
def restOkForDollar (rest : List Char) : Bool :=
  !rest.dropLast.contains '\n'

/-- `(Show\s*Suggested\s*Answer|Hide\s*Answer)` under `re.I`, anchored;
returns the rest after the marker.  The alternation is deterministic: the
two branches start with different letters. -/
def matchUiMarker (s : List Char) : Option (List Char) :=
  match matchCI "show".data s with
  | some r1 =>
    match matchCI "suggested".data (skipWs r1) with
    | some r2 => matchCI "answer".data (skipWs r2)
    | none => none
  | none =>
    match matchCI "hide".data s with
    | some r1 => matchCI "answer".data (skipWs r1)
    | none => none

/-- `\b` after the marker: the next character must be a non-word character
(or the end of the string); the marker always ends in a word character. -/
def boundaryOk (rest : List Char) : Bool :=
  match rest with
  | [] => true
  | c :: _ => !isWordChar c

/-- Does `\s*(Show\s*Suggested\s*Answer|Hide\s*Answer)\b.*$` (`re.I`)
match starting exactly at this position?  The leading `\s*` is forced to
the maximal whitespace run (the alternation starts with a letter). -/
def uiTailMatchesHere (s : List Char) : Bool :=
  match matchUiMarker (skipWs s) with
  | some rest => boundaryOk rest && restOkForDollar rest
  | none => false

/-- Python's trailing-`$` replacement keeps a final newline: the match
stops just before it. -/
def keptNewline (s : List Char) : List Char :=
  if s.getLast? == some '\n' then ['\n'] else []

/-- `re.sub(r"\s*(Show\s*Suggested\s*Answer|Hide\s*Answer)\b.*$", "", s,
flags=re.I)` (scraper_export.py line 74 / scrape.py line 96): delete from
the leftmost match to the end (keeping a final newline); if no position
matches, the string is unchanged. -/
def subShowHideTail : List Char → List Char
  | [] => []
  | c :: cs =>
    if uiTailMatchesHere (c :: cs) then keptNewline (c :: cs)
    else c :: subShowHideTail cs

/-- `Suggested\s*Answer\s*:` under `re.I`, anchored; returns the rest
after the colon. -/
def matchSuggestedColon (s : List Char) : Option (List Char) :=
  match matchCI "suggested".data s with
  | some r1 =>
    match matchCI "answer".data (skipWs r1) with
    | some r2 =>
      match skipWs r2 with
      | ':' :: r3 => some r3
      | _ => none
    | none => none
  | none => none

/-- Does `\s*Suggested\s*Answer\s*:.*$` (`re.I`) match starting exactly at
this position? -/
def sugColonMatchesHere (s : List Char) : Bool :=
  match matchSuggestedColon (skipWs s) with
  | some rest => restOkForDollar rest
  | none => false

/-- `re.sub(r"\s*Suggested\s*Answer\s*:.*$", "", s, flags=re.I)`
(scraper_export.py line 76 / scrape.py line 100). -/
def subSuggestedColonTail : List Char → List Char
  | [] => []
  | c :: cs =>
    if sugColonMatchesHere (c :: cs) then keptNewline (c :: cs)
    else c :: subSuggestedColonTail cs

/-- The four-character window of `\s<letter>[\.\)]\s` (case-sensitive, as
in the source). -/
def inlineMarkerAt (letter : Char) : List Char → Bool
  | a :: b :: c :: d :: _ =>
    isPySpace a && b == letter && (c == '.' || c == ')') && isPySpace d
  | _ => false

/-- `re.search(r"\s<letter>[\.\)]\s", s)`: index of the leftmost match
(`m.start()`), if any. -/
def findInlineIdx (letter : Char) : List Char → Option Nat
  | [] => none
  | c :: cs =>
    if inlineMarkerAt letter (c :: cs) then some 0
    else (findInlineIdx letter cs).map (· + 1)

/-- The question-text cleanup cascade of `normalize_question_dict`
(scraper_export.py lines 73–81): strip the `Show Suggested Answer` /
`Hide Answer` UI tail (falling back to a bare `Suggested Answer:` marker
when the first substitution left the *original* text unchanged), then
truncate at the first inline `A.`-marker when both an `A.` and a `B.`
marker are present. -/
def normalizeText (t : List Char) : List Char :=
  let tc0 := pyStripList (subShowHideTail t)
  let tc1 := if tc0 = t then pyStripList (subSuggestedColonTail t) else tc0
  if (findInlineIdx 'A' tc1).isSome && (findInlineIdx 'B' tc1).isSome then
    match findInlineIdx 'A' tc1 with
    | some i => pyStripList (tc1.take i)
    | none => tc1
  else tc1

/-- `\(\s*Choose\s+(?:two|three|four|\d+)\s*\)` (`re.I`), anchored: after
the number word (or maximal digit run) the pattern needs `\s*\)`. -/
def closeAfter : Option (List Char) → Bool
  | some r =>
    match skipWs r with
    | ')' :: _ => true
    | _ => false
  | none => false

/-- The Choose-phrase pattern anchored at this position. -/
def matchChooseAt : List Char → Bool
  | '(' :: r1 =>
    match matchCI "choose".data (skipWs r1) with
    | some r2 =>
      -- `\s+`: at least one whitespace character
      if (r2.takeWhile isPySpace).isEmpty then false
      else
        let r3 := r2.dropWhile isPySpace
        closeAfter (matchCI "two".data r3) || closeAfter (matchCI "three".data r3) ||
          closeAfter (matchCI "four".data r3) ||
          (!(r3.takeWhile Char.isDigit).isEmpty && closeAfter (some (r3.dropWhile Char.isDigit)))
    | none => false
  | _ => false

/-- `re.search(r"\(\s*Choose\s+(?:two|three|four|\d+)\s*\)", s, flags=re.I)`
as a Boolean (scraper_export.py lines 36 and 91). -/
def hasChoosePhrase : List Char → Bool
  | [] => false
  | c :: cs => matchChooseAt (c :: cs) || hasChoosePhrase cs

/-- A choice entry of the exported record shape: `{"id": …, "text": …}`. -/
structure CDict where
  id : String
  text : String
deriving DecidableEq, Repr

/-- A question record as built by `parsed_to_question_dict` and stored in
the scrape cache: the dict with keys `id`, `text`, `choices`,
`answer_choice_ids`, `is_multi_select`, `explanation`, `tags`. -/
structure QDict where
  id : String
  text : String
  choices : List CDict
  answer_choice_ids : Option (List String)
  is_multi_select : Option Bool
  explanation : Option String
  tags : Option (List String)
deriving DecidableEq, Repr

/-- `normalize_question_dict` (scraper_export.py lines 50–93): re-extract
answer labels from the (possibly dirty) text, clean the text, fill
`answer_choice_ids` only when currently absent, and derive
`is_multi_select` only when currently absent. -/
def normalize_question_dict (q : QDict) : QDict :=
  let text := q.text.data
  let labels := answerLabelsList text
  let text_clean := normalizeText text
  let ids : Option (List String) :=
    match q.answer_choice_ids with
    | none => if labels.isEmpty then none else some labels
    | some l => some l
  let multi : Option Bool :=
    match q.is_multi_select with
    | some b => some b
    | none =>
      some ((match ids with
             | some l => decide (1 < l.length)
             | none => false) || hasChoosePhrase text_clean)
  { q with text := ⟨text_clean⟩, answer_choice_ids := ids, is_multi_select := multi }

/-- A JSON value as produced by `json.loads` (question-set documents and
cache files contain no floats, so numbers are embedded as integers). -/
inductive Json where
  | null : Json
  | bool : Bool → Json
  | num : Int → Json
  | str : String → Json
  | arr : List Json → Json
  | obj : List (String × Json) → Json
deriving Repr

/-- `d[k]` / `k in d` for an object: `json.loads` builds a `dict` where a
duplicate key keeps the last occurrence, so lookup scans from the right. -/
def jlookup (kvs : List (String × Json)) (k : String) : Option Json :=
  (kvs.reverse.find? (fun kv => kv.1 == k)).map (fun kv => kv.2)

/-- `_require` (question_set.py lines 38–41). -/
def jrequire (kvs : List (String × Json)) (k : String) : Except String Json :=
  match jlookup kvs k with
  | none => .error ("missing required field: " ++ k)
  | some v => .ok v

/-- `d.get(k)`: a missing key behaves like an explicit `null`. -/
def jget (kvs : List (String × Json)) (k : String) : Json :=
  (jlookup kvs k).getD Json.null

/-- `_as_str` (question_set.py lines 44–47): a string whose `strip()` is
non-empty, returned verbatim. -/
def asStr (x : Json) (field : String) : Except String String :=
  match x with
  | .str s => if pyStrip s = "" then .error (field ++ " must be a non-empty string") else .ok s
  | _ => .error (field ++ " must be a non-empty string")

/-- `_as_optional_str` (question_set.py lines 50–56): `null` passes
through, a string is stripped, and a whitespace-only string becomes
`None`. -/
def asOptStr (x : Json) (field : String) : Except String (Option String) :=
  match x with
  | .null => .ok none
  | .str s => .ok (if pyStrip s = "" then none else some (pyStrip s))
  | _ => .error (field ++ " must be a string or null")

/-- `all(isinstance(i, str) for i in x)` plus the element extraction. -/
def asStrings : List Json → Option (List String)
  | [] => some []
  | .str s :: rest => (asStrings rest).map (fun l => s :: l)
  | _ :: _ => none

/-- `_as_optional_str_list` (question_set.py lines 59–65): `null` passes
through, every element must be a string, elements are stripped with
whitespace-only elements dropped, and an empty result becomes `None`. -/
def asOptStrList (x : Json) (field : String) : Except String (Option (List String)) :=
  match x with
  | .null => .ok none
  | .arr items =>
    match asStrings items with
    | some strs =>
      let out := (strs.map pyStrip).filter (fun s => s ≠ "")
      .ok (if out.isEmpty then none else some out)
    | none => .error (field ++ " must be a list of strings or null")
  | _ => .error (field ++ " must be a list of strings or null")

/-- `_as_optional_bool` (question_set.py lines 68–73). -/
def asOptBool (x : Json) (field : String) : Except String (Option Bool) :=
  match x with
  | .null => .ok none
  | .bool b => .ok (some b)
  | _ => .error (field ++ " must be a boolean or null")

/-- The `Choice` dataclass (question_set.py lines 8–11). -/
structure Choice where
  id : String
  text : String
deriving DecidableEq, Repr

/-- The `Question` dataclass (question_set.py lines 14–24). -/
structure Question where
  id : String
  text : String
  choices : List Choice
  answer_choice_ids : Option (List String)
  is_multi_select : Option Bool
  explanation : Option String
  tags : Option (List String)
deriving DecidableEq, Repr

/-- The `QuestionSet` dataclass (question_set.py lines 27–31). -/
structure QuestionSet where
  set_id : String
  title : String
  questions : List Question
deriving DecidableEq, Repr

/-- ASCII apostrophe, used by Python's `repr` of a string list. -/
def squote : String := ⟨[Char.ofNat 39]⟩

/-- Python `repr` of a list of strings, e.g. `['A', 'B']` — faithful for
ids free of quotes, backslashes and control characters, the only case the
loader's error message is exercised with. -/
def pyReprStrList (l : List String) : String :=
  "[" ++ String.intercalate ", " (l.map (fun s => squote ++ s ++ squote)) ++ "]"

/-- `_as_str(_require(d, k), field=…)`. -/
def reqStr (kvs : List (String × Json)) (k : String) (field : String) : Except String String :=
  match jrequire kvs k with
  | .error e => .error e
  | .ok v => asStr v field

/-- The inner loop over `choices_raw` (question_set.py lines 102–112):
`j` enumerates from 1 and `seen` is the accumulated `seen_cids` set. -/
def parseChoices (qid : String) (i : Nat) :
    List Json → Nat → List String → Except String (List Choice)
  | [], _, _ => .ok []
  | c :: rest, j, seen =>
    match c with
    | .obj kvs =>
      match reqStr kvs "id" ("questions[" ++ toString i ++ "].choices[" ++ toString j ++ "].id") with
      | .error e => .error e
      | .ok cid =>
        if cid ∈ seen then
          .error ("duplicate choice id in question " ++ qid ++ ": " ++ cid)
        else
          match reqStr kvs "text"
              ("questions[" ++ toString i ++ "].choices[" ++ toString j ++ "].text") with
          | .error e => .error e
          | .ok ctext =>
            match parseChoices qid i rest (j + 1) (cid :: seen) with
            | .error e => .error e
            | .ok tail => .ok (⟨cid, ctext⟩ :: tail)
    | _ => .error ("questions[" ++ toString i ++ "].choices[" ++ toString j ++ "] must be an object")

/-- One iteration of the outer loop (question_set.py lines 88–137):
parse `questions_raw[i-1]` against the question ids seen so far.  After
the choice loop, `seen_cids` is exactly the set of parsed choice ids
(the loop starts from an empty set and adds every id). -/
def parseQuestion (i : Nat) (seen : List String) (q : Json) : Except String Question :=
  match q with
  | .obj kvs =>
    match reqStr kvs "id" ("questions[" ++ toString i ++ "].id") with
    | .error e => .error e
    | .ok qid =>
      if qid ∈ seen then .error ("duplicate question id: " ++ qid)
      else
        match reqStr kvs "text" ("questions[" ++ toString i ++ "].text") with
        | .error e => .error e
        | .ok qtext =>
          match jrequire kvs "choices" with
          | .error e => .error e
          | .ok (.arr citems) =>
            if citems.isEmpty then
              .error ("questions[" ++ toString i ++ "].choices must be a non-empty list")
            else
              match parseChoices qid i citems 1 [] with
              | .error e => .error e
              | .ok choices =>
                match asOptStrList (jget kvs "answer_choice_ids")
                    ("questions[" ++ toString i ++ "].answer_choice_ids") with
                | .error e => .error e
                | .ok ids =>
                  -- `if answer_choice_ids:` — truthiness of the optional list;
                  -- `seen_cids` ends up as exactly the ids of the parsed choices
                  let cids := choices.map Choice.id
                  let unknown := (match ids with | some l => l | none => []).filter
                    (fun cid => ¬ cid ∈ cids)
                  if unknown.isEmpty then
                    match asOptBool (jget kvs "is_multi_select")
                        ("questions[" ++ toString i ++ "].is_multi_select") with
                    | .error e => .error e
                    | .ok multi =>
                      match asOptStr (jget kvs "explanation")
                          ("questions[" ++ toString i ++ "].explanation") with
                      | .error e => .error e
                      | .ok expl =>
                        match asOptStrList (jget kvs "tags")
                            ("questions[" ++ toString i ++ "].tags") with
                        | .error e => .error e
                        | .ok tags => .ok ⟨qid, qtext, choices, ids, multi, expl, tags⟩
                  else
                    .error ("questions[" ++ toString i ++
                      "].answer_choice_ids contains unknown choice ids: " ++ pyReprStrList unknown)
          | .ok _ => .error ("questions[" ++ toString i ++ "].choices must be a non-empty list")
  | _ => .error ("questions[" ++ toString i ++ "] must be an object")

/-- The outer loop over `questions_raw`. -/
def parseQuestions : List Json → Nat → List String → Except String (List Question)
  | [], _, _ => .ok []
  | q :: rest, i, seen =>
    match parseQuestion i seen q with
    | .error e => .error e
    | .ok pq =>
      match parseQuestions rest (i + 1) (pq.id :: seen) with
      | .error e => .error e
      | .ok tail => .ok (pq :: tail)

/-- `parse_question_set` (question_set.py lines 76–139).  `QuestionSetFormatError`
is embedded as the `Except.error` branch carrying the message. -/
def parse_question_set (obj : Json) : Except String QuestionSet :=
  match obj with
  | .obj kvs =>
    match reqStr kvs "set_id" "set_id" with
    | .error e => .error e
    | .ok set_id =>
      match reqStr kvs "title" "title" with
      | .error e => .error e
      | .ok title =>
        match jrequire kvs "questions" with
        | .error e => .error e
        | .ok (.arr items) =>
          match parseQuestions items 1 [] with
          | .error e => .error e
          | .ok questions => .ok ⟨set_id, title, questions⟩
        | .ok _ => .error "questions must be a list"
  | _ => .error "root must be an object"

/-- JSON encoding of an optional string: `None` → `null`. -/
def jOptStr : Option String → Json
  | none => .null
  | some s => .str s

/-- JSON encoding of an optional string list. -/
def jOptStrList : Option (List String) → Json
  | none => .null
  | some l => .arr (l.map Json.str)

/-- JSON encoding of an optional bool. -/
def jOptBool : Option Bool → Json
  | none => .null
  | some b => .bool b

/-- Modelled from the spec: the provided sources contain no serializer from
a parsed `QuestionSet` back to a document (the round-trip property of
spec §8 presupposes one).  This follows the bit-exact document shape of
spec §6: the three top-level keys, each question's seven keys in the
listed order, optional fields encoded as `null`; here one choice object. -/
def serializeChoice (c : Choice) : Json :=
  .obj [("id", .str c.id), ("text", .str c.text)]

/-- Modelled from the spec: one question of the document (see
`serializeChoice`): the seven keys of spec §6 in order. -/
def serializeQuestion (q : Question) : Json :=
  .obj [("id", .str q.id), ("text", .str q.text),
        ("choices", .arr (q.choices.map serializeChoice)),
        ("answer_choice_ids", jOptStrList q.answer_choice_ids),
        ("is_multi_select", jOptBool q.is_multi_select),
        ("explanation", jOptStr q.explanation),
        ("tags", jOptStrList q.tags)]

/-- Modelled from the spec: the document for a whole `QuestionSet`
(see `serializeQuestion`). -/
def serializeQuestionSet (qs : QuestionSet) : Json :=
  .obj [("set_id", .str qs.set_id), ("title", .str qs.title),
        ("questions", .arr (qs.questions.map serializeQuestion))]

/-- The JSON document for one cached question record, with the key order
in which `parsed_to_question_dict` (scraper_export.py lines 39–47) builds
the dict. -/
def qdictToJson (q : QDict) : Json :=
  .obj [("id", .str q.id), ("text", .str q.text),
        ("choices", .arr (q.choices.map (fun c => .obj [("id", .str c.id), ("text", .str c.text)]))),
        ("answer_choice_ids", jOptStrList q.answer_choice_ids),
        ("is_multi_select", jOptBool q.is_multi_select),
        ("explanation", jOptStr q.explanation),
        ("tags", jOptStrList q.tags)]

/-- `export_question_set` (scraper_export.py lines 96–97): the exported
document is `{"set_id": set_id, "questions": questions}` — and nothing
else. -/
def export_question_set (set_id : String) (questions : List QDict) : Json :=
  .obj [("set_id", .str set_id), ("questions", .arr (questions.map qdictToJson))]

/-- The `ParsedQuestion` dataclass (question_set_tools/db.py lines 133–138):
choices are `(label, text, is_correct)` triples. -/
structure ParsedQuestion where
  text : String
  choices : List (Option String × String × Bool)
  explanation : Option String := none
  raw_html : Option String := none
  q_index : Int := 1
deriving DecidableEq, Repr

/-- `choice_id_for` (scraper_export.py lines 10–14): a present, non-blank
label is stripped and used; otherwise the fallback letter
`chr(ord("A") + idx0)`. -/
def choice_id_for (label : Option String) (idx0 : Nat) : String :=
  match label with
  | some l => if pyStrip l ≠ "" then pyStrip l else ⟨[Char.ofNat (65 + idx0)]⟩
  | none => ⟨[Char.ofNat (65 + idx0)]⟩

/-- Case-sensitive literal match, returning the rest. -/
def matchLit : List Char → List Char → Option (List Char)
  | [], s => some s
  | _ :: _, [] => none
  | p :: ps, c :: cs => if p == c then matchLit ps cs else none

/-- `/discussions/[^/]+/(\d+)` anchored at this position: the literal,
a non-empty run without `/`, a `/`, then the greedy digit capture. -/
def matchDiscussionsId (s : List Char) : Option (List Char) :=
  match matchLit "/discussions/".data s with
  | none => none
  | some r =>
    let seg := r.takeWhile (fun c => c ≠ '/')
    if seg.isEmpty then none
    else
      match r.drop seg.length with
      | '/' :: r2 =>
        let digits := r2.takeWhile Char.isDigit
        if digits.isEmpty then none else some digits
      | _ => none

/-- `re.search(r"/discussions/[^/]+/(\d+)", url)`: leftmost match's digit
capture. -/
def findDiscussionsId : List Char → Option (List Char)
  | [] => none
  | c :: cs =>
    match matchDiscussionsId (c :: cs) with
    | some ds => some ds
    | none => findDiscussionsId cs

/-- `question_id_from_url` (scraper_export.py lines 17–22).  `sha1hex`
abstracts the external library call
`hashlib.sha1(url.encode("utf-8")).hexdigest()`; every theorem below
quantifies over it. -/
def question_id_from_url (sha1hex : String → String) (url : String) (q_index : Int) : String :=
  match findDiscussionsId url.data with
  | some ds => "et-" ++ ⟨ds⟩ ++ "-q" ++ toString q_index
  | none => "et-" ++ (sha1hex url).take 10 ++ "-q" ++ toString q_index

/-- `parsed_to_question_dict` (scraper_export.py lines 25–47): assign each
choice its id (label or fallback letter), collect the ids of the
`is_correct` choices, derive `is_multi_select`, and build the record. -/
def parsed_to_question_dict (sha1hex : String → String) (url : String) (pq : ParsedQuestion) :
    QDict :=
  let choices := pq.choices.enum.map (fun p => CDict.mk (choice_id_for p.2.1 p.1) p.2.2.1)
  let answer_ids := (pq.choices.enum.filter (fun p => p.2.2.2)).map
    (fun p => choice_id_for p.2.1 p.1)
  -- `bool(answer_ids and len(answer_ids) > 1) or bool(re.search(r"\(\s*Choose…", pq.text))`
  let is_multi := decide (1 < answer_ids.length) || hasChoosePhrase pq.text.data
  { id := question_id_from_url sha1hex url pq.q_index
    text := pq.text
    choices := choices
    answer_choice_ids := if answer_ids.isEmpty then none else some answer_ids
    is_multi_select := some is_multi
    explanation := pq.explanation
    tags := none }

/-- The chunk comprehension of `_cmd_scrape`
(question_set_tools/cli.py line 121):
`[questions[i : i + k] for i in range(0, len(questions), k)]` — the
slice `questions[i : i + k]` is `(l.drop i).take k` and
`range(0, n, k)` is `List.range' 0 ⌈n / k⌉ k` (for the `k ≥ 1` the
caller's `split_size > 0` guard guarantees). -/
def chunkList {α : Type} (k : Nat) (l : List α) : List (List α) :=
  (List.range' 0 ((l.length + k - 1) / k) k).map (fun i => (l.drop i).take k)

/-- `split_size and split_size > 0 and len(questions) > split_size`
(question_set_tools/cli.py line 119), with Python truthiness of the
optional int. -/
def shouldSplit : Option Int → Nat → Bool
  | some k, n => k != 0 && decide (0 < k) && decide ((n : Int) > k)
  | none, _ => false

/-- The export step of `_cmd_scrape` (question_set_tools/cli.py lines
116–149), abstracting the filesystem: the returned list pairs each output
file's `set_id` with its document, in output order.  In the split branch
the chunks are enumerated from 1 and each gets `set_id` suffixed `-<n>`;
otherwise a single document is produced. -/
def exportChunks (set_id : String) (split_size : Option Int) (questions : List QDict) :
    List (String × Json) :=
  if shouldSplit split_size questions.length then
    let k := (match split_size with | some k => k | none => 0).toNat
    (chunkList k questions).enum.map
      (fun p => (set_id ++ "-" ++ toString (p.1 + 1),
                 export_question_set (set_id ++ "-" ++ toString (p.1 + 1)) p.2))
  else
    [(set_id, export_question_set set_id questions)]

/-- Modelled from the spec: the CLI (question_set_tools/cli.py lines 9 and
27–33) imports `CollectUrlsConfig` with a `continue_on_error` field from
`question_set_tools.scrape`, which is not among the provided sources (the
sibling `examtopics_helper/scrape.py` lacks the field).  Spec §4.2: the
default is to continue on error. -/
structure CollectUrlsConfig where
  max_workers : Nat := 10
  continue_on_error : Bool := true
deriving DecidableEq, Repr

/-- First-seen-order deduplication of the collected URLs
(the `seen` set loop of `collect_discussion_urls_from_list_pages`). -/
def dedupKeepFirst : List String → List String → List String
  | [], _ => []
  | u :: us, seen => if u ∈ seen then dedupKeepFirst us seen else u :: dedupKeepFirst us (u :: seen)

/-- Modelled from the spec: the page loop of
`collect_discussion_urls_from_list_pages` with `continue_on_error`
(question_set_tools/scrape.py, absent from the provided sources).  Each
list page is given with its fetch-and-extract outcome (the Fetch Client
and HTML parsing are external); a failing page aborts immediately when
`continue_on_error` is false, and is otherwise recorded in the failure
list while the remaining pages proceed. -/
def collectGo : List (String × Except String (List String)) → Bool →
    Except String (List String × List String)
  | [], _ => .ok ([], [])
  | (u, res) :: rest, cont =>
    match res with
    | .ok urls =>
      match collectGo rest cont with
      | .ok (collected, failed) => .ok (urls ++ collected, failed)
      | .error e => .error e
    | .error e =>
      if cont then
        match collectGo rest cont with
        | .ok (collected, failed) => .ok (collected, u :: failed)
        | .error e2 => .error e2
      else .error e

/-- Modelled from the spec: `collect_discussion_urls_from_list_pages`
(see `collectGo`); the per-page results are concatenated and de-duplicated
keeping first occurrences, and the failing pages are returned alongside
(the `failed_list_pages_out` parameter of the CLI call). -/
def collect_discussion_urls_from_list_pages
    (pages : List (String × Except String (List String))) (cfg : CollectUrlsConfig) :
    Except String (List String × List String) :=
  match collectGo pages cfg.continue_on_error with
  | .error e => .error e
  | .ok (collected, failed) => .ok (dedupKeepFirst collected [], failed)

/-- `upvoted\s+(\d+)\s+times?` (`re.I`) anchored at this position, with
the trailing `\b` resolved (an `s` is taken greedily; if a word character
follows either way the whole match fails, since backtracking to the
`s`-less branch leaves the word character `s` ahead).  Returns the vote
count and the match length.  The leading `\b` is the caller's duty. -/
def matchVoteAt (s : List Char) : Option (Nat × Nat) :=
  match matchCI "upvoted".data s with
  | none => none
  | some r1 =>
    let w1 := r1.takeWhile isPySpace
    if w1.isEmpty then none
    else
      let r2 := r1.drop w1.length
      let ds := r2.takeWhile Char.isDigit
      if ds.isEmpty then none
      else
        let r3 := r2.drop ds.length
        let w2 := r3.takeWhile isPySpace
        if w2.isEmpty then none
        else
          let votes := ds.foldl (fun n c => n * 10 + (c.toNat - 48)) 0
          let len0 := 7 + w1.length + ds.length + w2.length + 4
          match matchCI "time".data (r3.drop w2.length) with
          | none => none
          | some r5 =>
            match r5 with
            | [] => some (votes, len0)
            | c :: r6 =>
              if c.toLower == 's' then
                if boundaryOk r6 then some (votes, len0 + 1) else none
              else if !isWordChar c then some (votes, len0) else none

/-- `finditer` over the vote pattern, yielding the segment of text before
each match paired with that match's vote count (the segmentation loop of
`_format_top_voted_explanation`, scrape.py lines 169–181); the text after
the last match is discarded, as in the source.  `skip` counts characters
still inside a match (non-overlapping scanning resumes after the match
end); `prevWord` carries the word-character status of the previous
character for the leading `\b`; `acc` holds the current segment
reversed. -/
def voteSegGo : List Char → Nat → Bool → List Char → List (List Char × Nat)
  | [], _, _, _ => []
  | c :: cs, skip + 1, _, acc => voteSegGo cs skip (isWordChar c) acc
  | c :: cs, 0, prevWord, acc =>
    if !prevWord then
      match matchVoteAt (c :: cs) with
      | some (votes, len) => (acc.reverse, votes) :: voteSegGo cs (len - 1) (isWordChar c) []
      | none => voteSegGo cs 0 (isWordChar c) (c :: acc)
    else voteSegGo cs 0 (isWordChar c) (c :: acc)

/-- The vote-marker segmentation of the discussion blob. -/
def voteSegments (s : List Char) : List (List Char × Nat) :=
  voteSegGo s 0 false []

/-- `re.sub(r"^\s*\.\.\.\s*", "", block)` (scrape.py line 174): one
anchored removal of a leading ellipsis separator. -/
def stripLeadEllipsis (b : List Char) : List Char :=
  match b.dropWhile isPySpace with
  | '.' :: '.' :: '.' :: r => r.dropWhile isPySpace
  | _ => b

/-- `max(blocks, key=lambda x: x[0])` (scrape.py line 186): Python's `max`
keeps the first of equally-keyed elements, so only a strictly greater vote
count replaces the current best. -/
def pickTopVoted : List (Nat × List Char) → (Nat × List Char) → (Nat × List Char)
  | [], best => best
  | b :: bs, best => pickTopVoted bs (if best.1 < b.1 then b else best)

/-- `str.replace(pat, repl)` for non-empty `pat`: leftmost,
non-overlapping, all occurrences; `skip` counts characters still inside a
replaced occurrence. -/
def listReplaceGo (pat repl : List Char) : List Char → Nat → List Char
  | [], _ => []
  | _ :: cs, skip + 1 => listReplaceGo pat repl cs skip
  | c :: cs, 0 =>
    if (c :: cs).take pat.length = pat then
      repl ++ listReplaceGo pat repl cs (pat.length - 1)
    else c :: listReplaceGo pat repl cs 0

/-- `str.replace(pat, repl)`. -/
def listReplace (pat repl s : List Char) : List Char :=
  listReplaceGo pat repl s 0

/-- `re.sub(r"\n{3,}", "\n\n", best)` (scrape.py line 190): each maximal
newline run of length ≥ 3 collapses to two; `pending` counts the newlines
of the current run. -/
def collapseNlGo : List Char → Nat → List Char
  | [], pending => if 3 ≤ pending then ['\n', '\n'] else List.replicate pending '\n'
  | c :: cs, pending =>
    if c == '\n' then collapseNlGo cs (pending + 1)
    else
      (if 3 ≤ pending then ['\n', '\n'] else List.replicate pending '\n') ++
        c :: collapseNlGo cs 0

/-- The newline-run collapse. -/
def collapseNewlines (s : List Char) : List Char :=
  collapseNlGo s 0

/-- Space or tab, the class `[ \t]`. -/
def isSpaceTab (c : Char) : Bool := c == ' ' || c == '\t'

/-- `re.sub(r"[ \t]{2,}", " ", best)` (scrape.py line 191): each maximal
space/tab run of length ≥ 2 collapses to one space; `pend` holds the
current run reversed. -/
def collapseSpGo : List Char → List Char → List Char
  | [], pend => if 2 ≤ pend.length then [' '] else pend.reverse
  | c :: cs, pend =>
    if isSpaceTab c then collapseSpGo cs (c :: pend)
    else (if 2 ≤ pend.length then [' '] else pend.reverse) ++ c :: collapseSpGo cs []

/-- The space/tab-run collapse. -/
def collapseSpaces (s : List Char) : List Char :=
  collapseSpGo s []

/-- `re.match(r"^([^\s]+)\s+(.*)$", best)` (scrape.py line 199): the
author token and the stripped remainder.  `best` reaches this point
stripped (line 191's `.strip()`), so the greedy `\s+` never needs to
backtrack (the string cannot end inside whitespace) and the final-newline
case of `$` cannot arise; the `(.*)` group fails only when a newline
remains after the first whitespace run. -/
def splitAuthor (best : List Char) : Option (String × List Char) :=
  let w := best.takeWhile (fun c => !isPySpace c)
  if w.isEmpty then none
  else
    let after := best.drop w.length
    let ws := after.takeWhile isPySpace
    if ws.isEmpty then none
    else
      let t := after.drop ws.length
      let core := if t.getLast? == some '\n' then t.dropLast else t
      if core.isEmpty || core.contains '\n' then none
      else some (⟨pyStripList w⟩, pyStripList core)

/-- `Highly\s+Voted` / `Most\s+Recent` (`re.I`) anchored here, returning
the match length; the trailing `\b` checks the next character. -/
def matchBadgeAt (s : List Char) : Option Nat :=
  match matchCI "highly".data s with
  | some r1 =>
    let w := r1.takeWhile isPySpace
    if w.isEmpty then none
    else
      match matchCI "voted".data (r1.drop w.length) with
      | some r2 => if boundaryOk r2 then some (6 + w.length + 5) else none
      | none => none
  | none =>
    match matchCI "most".data s with
    | some r1 =>
      let w := r1.takeWhile isPySpace
      if w.isEmpty then none
      else
        match matchCI "recent".data (r1.drop w.length) with
        | some r2 => if boundaryOk r2 then some (4 + w.length + 6) else none
        | none => none
    | none => none

/-- `re.sub(r"\b(Highly\s+Voted|Most\s+Recent)\b", "", rest, flags=re.I)`
(scrape.py line 206); `skip` counts characters still inside a removed
badge (the trailing `\b` of the next match then sees the badge's final
word character). -/
def subBadgesGo : List Char → Nat → Bool → List Char
  | [], _, _ => []
  | c :: cs, skip + 1, _ => subBadgesGo cs skip (isWordChar c)
  | c :: cs, 0, prevWord =>
    if !prevWord then
      match matchBadgeAt (c :: cs) with
      | some len => subBadgesGo cs (len - 1) (isWordChar c)
      | none => c :: subBadgesGo cs 0 (isWordChar c)
    else c :: subBadgesGo cs 0 (isWordChar c)

/-- The badge removal. -/
def subBadges (s : List Char) : List Char :=
  subBadgesGo s 0 false

/-- The character class `[\w\s,]`. -/
def ageClassChar (c : Char) : Bool := isWordChar c || isPySpace c || c == ','

/-- The lazy middle of `(\d[\w\s,]*?\bago)\b` (scrape.py line 208): from a
given previous character, try `\bago\b` at each step before consuming one
more class character; returns the consumed middle together with the `ago`
token (original casing). -/
def ageScan (prev : Char) (s : List Char) (acc : List Char) : Option (List Char) :=
  match (if !isWordChar prev then
           match matchCI "ago".data s with
           | some rest => if boundaryOk rest then some (acc.reverse ++ s.take 3) else none
           | none => none
         else none) with
  | some m => some m
  | none =>
    match s with
    | c :: cs => if ageClassChar c then ageScan c cs (c :: acc) else none
    | [] => none

/-- `re.search(r"(\d[\w\s,]*?\bago)\b", rest, flags=re.I)`: leftmost digit
start whose lazy continuation reaches an `ago` token. -/
def findAge : List Char → Option (List Char)
  | [] => none
  | c :: cs =>
    match (if c.isDigit then (ageScan c cs []).map (fun m => c :: m) else none) with
    | some m => some m
    | none => findAge cs

/-- `Selected\s+Answer\s*:\s*([A-Z]{1,6})` (`re.I`) anchored here:
returns the letter capture (greedy, at most six) and the rest after it. -/
def matchSelectedAt (s : List Char) : Option (List Char × List Char) :=
  match matchCI "selected".data s with
  | none => none
  | some r1 =>
    let w := r1.takeWhile isPySpace
    if w.isEmpty then none
    else
      match matchCI "answer".data (r1.drop w.length) with
      | none => none
      | some r2 =>
        match skipWs r2 with
        | ':' :: r3 =>
          let letters := (skipWs r3).takeWhile Char.isAlpha |>.take 6
          if letters.isEmpty then none
          else some (letters, (skipWs r3).drop letters.length)
        | _ => none

/-- `re.search` for the `Selected Answer` pattern. -/
def findSelected : List Char → Option (List Char × List Char)
  | [] => none
  | c :: cs =>
    match matchSelectedAt (c :: cs) with
    | some r => some r
    | none => findSelected cs

/-- `\bCorrect\s+([A-Z]{1,6})\b` (`re.I`) anchored here (the leading `\b`
is the caller's duty): the letter run must have length 1–6 and be followed
by a non-word character or the end (a longer run cannot satisfy the
trailing `\b` under any backtracking). -/
def matchCorrectAt (s : List Char) : Option (List Char × List Char) :=
  match matchCI "correct".data s with
  | none => none
  | some r1 =>
    let w := r1.takeWhile isPySpace
    if w.isEmpty then none
    else
      let r2 := r1.drop w.length
      let letters := r2.takeWhile Char.isAlpha
      if letters.isEmpty || decide (6 < letters.length) then none
      else
        let rest := r2.drop letters.length
        if boundaryOk rest then some (letters, rest) else none

/-- `re.search` for the `Correct <letters>` fallback, tracking `\b`. -/
def findCorrect : List Char → Bool → Option (List Char × List Char)
  | [], _ => none
  | c :: cs, prevWord =>
    match (if !prevWord then matchCorrectAt (c :: cs) else none) with
    | some r => some r
    | none => findCorrect cs (isWordChar c)

/-- `re.sub(rf"^\s*{re.escape(age)}\s*", "", body)` (scrape.py line 227):
one anchored removal of the literal age phrase. -/
def stripLeadingLiteral (lit : List Char) (b : List Char) : List Char :=
  let r := b.dropWhile isPySpace
  if r.take lit.length = lit then (r.drop lit.length).dropWhile isPySpace else b

/-- `https?://\S+` anchored here: the match length. -/
def matchHttpUrl (s : List Char) : Option Nat :=
  match matchLit "http".data s with
  | none => none
  | some r1 =>
    let (n1, r2) := match r1 with
      | 's' :: r => (5, r)
      | _ => (4, r1)
    match matchLit "://".data r2 with
    | none => none
    | some r3 =>
      let run := r3.takeWhile (fun c => !isPySpace c)
      if run.isEmpty then none else some (n1 + 3 + run.length)

/-- `re.sub(r"(?<!\s)(https?://\S+)", "\n\1", body)` (scrape.py line 230):
a newline is inserted before every URL not preceded by whitespace; `prev`
is the preceding character (none at the start, where the lookbehind
succeeds); `skip` counts characters still inside an already-emitted
match. -/
def subUrlAGo : List Char → Nat → Option Char → List Char
  | [], _, _ => []
  | c :: cs, skip + 1, _ => subUrlAGo cs skip (some c)
  | c :: cs, 0, prev =>
    let lookOk := match prev with
      | none => true
      | some p => !isPySpace p
    match (if lookOk then matchHttpUrl (c :: cs) else none) with
    | some len => '\n' :: (c :: cs).take len ++ subUrlAGo cs (len - 1) (some c)
    | none => c :: subUrlAGo cs 0 (some c)

/-- The no-whitespace-before-URL substitution. -/
def subUrlNoWsBefore (s : List Char) : List Char :=
  subUrlAGo s 0 none

/-- `re.sub(r"\s+(https?://\S+)", "\n\1", body)` (scrape.py line 231):
a whitespace run before a URL becomes a single newline; `skip` counts
characters of the consumed run-plus-URL still ahead. -/
def subUrlBGo : List Char → Nat → List Char
  | [], _ => []
  | _ :: cs, skip + 1 => subUrlBGo cs skip
  | c :: cs, 0 =>
    if isPySpace c then
      -- the maximal `\s+` run starting at `c` ends where `cs.dropWhile` ends
      let w := (c :: cs).takeWhile isPySpace
      let r := cs.dropWhile isPySpace
      match matchHttpUrl r with
      | some len => '\n' :: r.take len ++ subUrlBGo cs (w.length - 1 + len)
      | none => c :: subUrlBGo cs 0
    else c :: subUrlBGo cs 0

/-- The whitespace-before-URL substitution. -/
def subUrlWsBefore (s : List Char) : List Char :=
  subUrlBGo s 0

/-- U+00A0, replaced by a space at the top of
`_format_top_voted_explanation` (scrape.py line 161). -/
def nbspChar : Char := Char.ofNat 160

/-- The non-breaking-space replacement and strip:
`str(discussion_text).replace(" ", " ").strip()`. -/
def prepDiscussion (s : String) : List Char :=
  pyStripList (s.data.map (fun c => if c == nbspChar then ' ' else c))

/-- The vote blocks (scrape.py lines 169–181): each segment is stripped,
a leading ellipsis separator removed, and empty blocks dropped. -/
def voteBlocks (s : List Char) : List (Nat × List Char) :=
  (voteSegments s).filterMap
    (fun p =>
      let b := stripLeadEllipsis (pyStripList p.1)
      if b.isEmpty then none else some (p.2, b))

/-- The readability pass on the winning block (scrape.py lines 189–191). -/
def tidyBest (best : List Char) : List Char :=
  pyStripList (collapseSpaces (collapseNewlines
    (listReplace "...".data "\n\n".data (listReplace " ... ".data "\n\n".data best))))

/-- `_format_top_voted_explanation` (scrape.py lines 150–242). -/
def format_top_voted_explanation (discussion_text : Option String) : Option String :=
  match discussion_text with
  | none => none
  | some dt =>
    if dt = "" then none
    else
      let s := prepDiscussion dt
      match voteSegments s with
      | [] => if s.isEmpty then none else some ⟨s⟩
      | _ :: _ =>
        match voteBlocks s with
        | [] => none
        | bb :: restBlocks =>
          let vb := pickTopVoted restBlocks bb
          let votes := vb.1
          let best := tidyBest vb.2
          let (author, rest0) : Option String × List Char :=
            match splitAuthor best with
            | some (a, r) => (some a, r)
            | none => (none, best)
          let rest := pyStripList (subBadges rest0)
          let age : Option (List Char) := (findAge rest).map pyStripList
          let (selected, body0) : Option (List Char) × List Char :=
            match findSelected rest with
            | some (letters, after) => (some ((pyStripList letters).map Char.toUpper), pyStripList after)
            | none =>
              match findCorrect rest false with
              | some (letters, after) => (some ((pyStripList letters).map Char.toUpper), pyStripList after)
              | none => (none, pyStripList rest)
          let body1 := match age with
            | some a => pyStripList (stripLeadingLiteral a body0)
            | none => body0
          let body := pyStripList (subUrlWsBefore (subUrlNoWsBefore body1))
          let lines : List String :=
            ["Top voted (" ++ toString votes ++ " votes)", ""] ++
            (match author with | some a => ["author: " ++ a] | none => []) ++
            (match age with | some a => [⟨a⟩] | none => []) ++
            (match selected with | some l => ["Selected Answer: " ++ ⟨l⟩] | none => []) ++
            (if body.isEmpty then [] else ["", ⟨body⟩])
          let out := pyStrip (String.intercalate "\n" lines)
          if out = "" then none else some out

/-- `_strip_suggested_answer_ui` (scrape.py lines 90–101): note that,
unlike the cascade inside `normalize_question_dict`, the fallback fires
when the substitution result equals the input *before* stripping. -/
def strip_suggested_answer_ui (s : List Char) : List Char :=
  let s2 := subShowHideTail s
  if s2 ≠ s then pyStripList s2
  else pyStripList (subSuggestedColonTail s)

/-- `_strip_inline_choices_from_text` (scrape.py lines 104–116). -/
def strip_inline_choices_from_text (s : List Char) : List Char :=
  if (findInlineIdx 'A' s).isNone then pyStripList s
  else if (findInlineIdx 'B' s).isNone then pyStripList s
  else
    match findInlineIdx 'A' s with
    | some i => pyStripList (s.take i)
    | none => pyStripList s

/-- The question container selected by the fallback chain
`.question-body` / `.question-text` / `div.question` / `article`
(scrape.py lines 254–259), abstracting the DOM: its `get_text`-or-`None`
and its text after the choice sub-containers are structurally removed
(scrape.py lines 262–278; the swallowed-exception branch keeps the
original text, which coincides with `cleaned = ""` never overriding). -/
structure QContainer where
  text : Option String
  cleaned : String
deriving DecidableEq, Repr

/-- The selector results of one discussion page, abstracting
`BeautifulSoup(html)`: the question container (if any selector matched),
the `h1` text, the matched choice elements — each with its `get_text` and
the text of a `.choice-letter` / `.letter` sub-element if present — and
the `.discussion-container` / `.discussion` text. -/
structure PageModel where
  qEl : Option QContainer
  h1Text : Option String
  choiceEls : List (String × Option String)
  discussionText : Option String
deriving DecidableEq, Repr

/-- `re.match(r"^\s*([A-Z])[\.\)\:]\s*(.+)$", t)` (scrape.py line 308,
case-sensitive, no DOTALL/MULTILINE): the leading label letter and
`mm.group(2).strip()`.  The second `\s*` matches newlines, so after the
separator the greedy whitespace run is skipped first and `(.+)$` must
then match a newline-free remainder, allowing one string-final `\n`
(which `$` sits before and the capture excludes); since the capture is
then `strip()`ped, the returned text is the strip of everything after
the separator.  When everything after the separator is whitespace,
`\s*` backtracks and `(.+)$` can still match a single non-`\n`
whitespace character — the last character, or the one before a
string-final `\n` — and the stripped capture is empty. -/
def labelHeuristic (t : List Char) : Option (String × String) :=
  match t.dropWhile isPySpace with
  | L :: sep :: rest =>
    if L.isUpper && (sep == '.' || sep == ')' || sep == ':') then
      match rest.dropWhile isPySpace with
      | [] =>
        let core := if rest.getLast? == some '\n' then rest.dropLast else rest
        match core.getLast? with
        | some c => if c == '\n' then none else some (⟨[L]⟩, "")
        | none => none
      | c2 :: rest2 =>
        let body := c2 :: rest2
        let core := if body.getLast? == some '\n' then body.dropLast else body
        if core.contains '\n' then none
        else some (⟨[L]⟩, ⟨pyStripList rest⟩)
    else none
  | _ => none

/-- One iteration of the choice loop (scrape.py lines 302–320): skip
blank texts; try the leading-label regex (which also rewrites the text);
otherwise consult the label sub-element, accepted when its
stripped-uppercased text is a single `A`–`Z` letter
(`re.match(r"^[A-Z]$", …)`); mark correct iff the label is among the
extracted answer labels. -/
def parseChoiceEl (correct : List String) (t : String) (labEl : Option String) :
    Option (Option String × String × Bool) :=
  if t = "" then none
  else
    match labelHeuristic t.data with
    | some (L, newT) => some (some L, newT, decide (L ∈ correct))
    | none =>
      let label : Option String :=
        match labEl with
        | some lab =>
          match (pyStripList lab.data).map Char.toUpper with
          | [c] => if c.isUpper then some ⟨[c]⟩ else none
          | _ => none
        | none => none
      some (label, t, (match label with | some l => decide (l ∈ correct) | none => false))

/-- `parse_discussion_page` (scrape.py lines 245–332) over the selector
abstraction; `html` is the raw input, stored in `raw_html`.  The function
is total: the source's best-effort contract (`ParseError` is never
raised) is modelled by totality. -/
def parse_discussion_page (html : String) (p : PageModel) : ParsedQuestion :=
  let q_text_raw0 := ((p.qEl.bind QContainer.text).orElse (fun _ => p.h1Text)).getD "Question"
  let q_text_raw :=
    match p.qEl with
    | some el => if el.cleaned ≠ "" then el.cleaned else q_text_raw0
    | none => q_text_raw0
  let discussion := p.discussionText
  let explanation := format_top_voted_explanation discussion
  let meta_text := q_text_raw ++ " " ++ discussion.getD ""
  let correct_labels := extract_answer_labels meta_text
  let q_text := strip_inline_choices_from_text (strip_suggested_answer_ui q_text_raw.data)
  let choices := p.choiceEls.filterMap (fun ce => parseChoiceEl correct_labels ce.1 ce.2)
  let choices :=
    if choices.isEmpty then [(none, "N/A (could not parse choices)", false)] else choices
  { text := ⟨q_text⟩
    choices := choices
    explanation := explanation
    raw_html := some html
    q_index := 1 }

/-! ## Concrete instances used by the claim theorems and witnesses -/

/-- A cached record whose text still carries both a `Suggested Answer:`
marker and a `Hide Answer` UI tail. -/
def cexRecord : QDict :=
  { id := "q1"
    text := "q Suggested Answer: B Hide Answer x"
    choices := [⟨"A", "a"⟩, ⟨"B", "b"⟩]
    answer_choice_ids := some ["B"]
    is_multi_select := some false
    explanation := none
    tags := none }

/-- A parsed question whose two choices carry the same explicit label. -/
def cexParsed : ParsedQuestion :=
  { text := "t"
    choices := [(some "A", "x", false), (some "A", "y", false)]
    explanation := none
    raw_html := none
    q_index := 1 }

/-- A valid QuestionSet document whose explanation field carries
surrounding whitespace. -/
def cexDoc : Json :=
  .obj [("set_id", .str "s"), ("title", .str "t"),
    ("questions", .arr [ .obj [("id", .str "q1"), ("text", .str "T"),
      ("choices", .arr [ .obj [("id", .str "A"), ("text", .str "x")],
                         .obj [("id", .str "B"), ("text", .str "y")]]),
      ("answer_choice_ids", .arr [.str "A"]),
      ("is_multi_select", .bool false),
      ("explanation", .str " e "),
      ("tags", .null)]])]

/-- `parse_question_set cexDoc`'s value. -/
def cexDocParsed : QuestionSet :=
  { set_id := "s", title := "t"
    questions := [{ id := "q1", text := "T"
                    choices := [⟨"A", "x"⟩, ⟨"B", "y"⟩]
                    answer_choice_ids := some ["A"]
                    is_multi_select := some false
                    explanation := some "e"
                    tags := none }] }

/-- A document exercising the loader's optional-field normalization: an
empty `answer_choice_ids` list, a whitespace-only tag and a
whitespace-only explanation. -/
def c10DocA : Json :=
  .obj [("set_id", .str "s"), ("title", .str "t"),
    ("questions", .arr [ .obj [("id", .str "q1"), ("text", .str "T"),
      ("choices", .arr [ .obj [("id", .str "A"), ("text", .str "x")]]),
      ("answer_choice_ids", .arr []),
      ("is_multi_select", .null),
      ("explanation", .str "  "),
      ("tags", .arr [.str " ", .str "\t"])]])]

/-- The same document with the optional fields as explicit nulls. -/
def c10DocB : Json :=
  .obj [("set_id", .str "s"), ("title", .str "t"),
    ("questions", .arr [ .obj [("id", .str "q1"), ("text", .str "T"),
      ("choices", .arr [ .obj [("id", .str "A"), ("text", .str "x")]]),
      ("answer_choice_ids", .null),
      ("is_multi_select", .null),
      ("explanation", .null),
      ("tags", .null)]])]

/-- The `explanation` string of the first question of a document (a
projection used to exhibit structural differences between documents). -/
def qExplData (doc : Json) : Option String :=
  match doc with
  | .obj kvs =>
    match jlookup kvs "questions" with
    | some (.arr (q :: _)) =>
      match q with
      | .obj qkvs =>
        match jlookup qkvs "explanation" with
        | some (.str s) => some s
        | _ => none
      | _ => none
    | _ => none
  | _ => none

/-- A minimal cached question record (for the chunked-export example). -/
def dummyRecord : QDict :=
  { id := "d", text := "T", choices := [⟨"A", "x"⟩]
    answer_choice_ids := none, is_multi_select := some false
    explanation := none, tags := none }

/-- A page whose choice selectors matched nothing. -/
def pageNoChoices : PageModel :=
  { qEl := some ⟨some "What?", "What?"⟩
    h1Text := none
    choiceEls := []
    discussionText := some "alice says so upvoted 3 times" }

/-- A choice whose label is absent or blank (so that `choice_id_for`
falls back to the positional letter). -/
def labelBlank (c : Option String × String × Bool) : Bool :=
  match c.1 with
  | some l => pyStrip l == ""
  | none => true

/-- A parsed question with unlabeled choices. -/
def wParsed : ParsedQuestion :=
  { text := "t"
    choices := [(none, "x", true), (none, "y", false)]
    explanation := none
    raw_html := none
    q_index := 1 }

/-- Whether a list page's fetch outcome succeeded. -/
def pageOk (p : String × Except String (List String)) : Bool :=
  match p.2 with
  | .ok _ => true
  | .error _ => false

/-- The extracted URLs of a successful page, `none` for a failing one. -/
def pageUrls (p : String × Except String (List String)) : Option (List String) :=
  match p.2 with
  | .ok us => some us
  | .error _ => none

/-- The two-block discussion text of spec §8. -/
def exDiscussion : String :=
  "CommenterA some words upvoted 5 times CommenterB better words upvoted 20 times"

/-- The structured explanation selected from `exDiscussion`. -/
def exTopVoted : String :=
  "Top voted (20 votes)\n\nauthor: CommenterB\n\nbetter words"

end ExamSim

namespace ExamSim

/-! ## Helper lemmas -/

theorem asStrings_map_str (x : List String) : asStrings (x.map Json.str) = some x := by
  induction x with
  | nil => rfl
  | cons s rest ih => simp [asStrings, ih]

theorem dedupChars_nodup (l : List Char) :
    ∀ seen, (dedupChars l seen).Nodup ∧ ∀ c ∈ dedupChars l seen, c ∉ seen := by
  induction l with
  | nil => intro seen; simp [dedupChars]
  | cons c cs ih =>
    intro seen
    by_cases hc : c ∈ seen
    · simpa [dedupChars, hc] using ih seen
    · have h2 := ih (c :: seen)
      refine ⟨?_, ?_⟩
      · simp only [dedupChars, if_neg hc, List.nodup_cons]
        exact ⟨fun hmem => (h2.2 c hmem) (List.mem_cons_self c seen), h2.1⟩
      · intro d hd
        simp only [dedupChars, if_neg hc, List.mem_cons] at hd
        rcases hd with rfl | hd
        · exact hc
        · exact fun hds => (h2.2 d hd) (List.mem_cons_of_mem c hds)

theorem charToString_injective : Function.Injective Char.toString := by
  intro a b h
  have : (Char.toString a).data = (Char.toString b).data := by rw [h]
  simpa [Char.toString, String.singleton, String.push] using this

/-! ## Claim theorems -/

/-- **C5.**  Answer-label extraction searches for a `Suggested Answer:`
marker first and a `Correct Answer:` marker otherwise, collecting the
following uppercase letters in first-seen order with duplicates removed;
in particular the three examples of spec §8 evaluate as stated. -/
theorem claim_C5_extract_answer_labels :
    extract_answer_labels "Suggested Answer: AC" = ["A", "C"] ∧
    extract_answer_labels "Correct Answer: A, C" = ["A", "C"] ∧
    extract_answer_labels "no marker here" = [] ∧
    (∀ s : String, (extract_answer_labels s).Nodup) := by
  refine ⟨by decide, by decide, by decide, ?_⟩
  intro s
  unfold extract_answer_labels answerLabelsList
  split
  · exact List.nodup_nil
  · split
    · exact ((dedupChars_nodup _ []).1).map charToString_injective
    · split
      · exact ((dedupChars_nodup _ []).1).map charToString_injective
      · exact List.nodup_nil

/-- **C1.**  The claim is that every exporter document conforms to the
QuestionSet shape — in particular carries a `title` field — and is
accepted by the loader.  In fact `export_question_set` emits only
`set_id` and `questions`, so the loader rejects every exported document
with `missing required field: title` (whenever the `set_id` is
non-blank, so that validation reaches the `title` check). -/
theorem claim_C1_export_rejected (set_id : String) (questions : List QDict)
    (h : pyStrip set_id ≠ "") :
    parse_question_set (export_question_set set_id questions) =
      .error "missing required field: title" := by
  simp [parse_question_set, export_question_set, reqStr, jrequire, jlookup, asStr, h]

/-- Witness for C1 at a concrete export. -/
theorem claim_C1_witness :
    pyStrip "s" ≠ "" ∧
    parse_question_set (export_question_set "s" []) =
      .error "missing required field: title" :=
  ⟨by decide, claim_C1_export_rejected "s" [] (by decide)⟩

/-- **C10.**  The loader normalizes optional fields rather than preserving
them: a list all of whose entries are whitespace-only loads as `None`
(and in particular an empty or null list does), a whitespace-only
optional string loads as `None`, and consequently two documents
differing only in `[]`/whitespace-only versus `null` optional fields
load to identical QuestionSets. -/
theorem claim_C10_loader_normalizes :
    (∀ (x : List String) (field : String), (∀ s ∈ x, pyStrip s = "") →
      asOptStrList (.arr (x.map Json.str)) field = .ok none) ∧
    (∀ field : String, asOptStrList (.arr []) field = .ok none ∧
      asOptStrList .null field = .ok none) ∧
    (∀ (s : String) (field : String), pyStrip s = "" →
      asOptStr (.str s) field = .ok none) ∧
    parse_question_set c10DocA = parse_question_set c10DocB := by
  refine ⟨?_, ?_, ?_, ?_⟩
  · intro x field h
    have hfilter : (x.map pyStrip).filter (fun s => decide (s ≠ "")) = [] := by
      rw [List.filter_eq_nil_iff]
      intro a ha
      rcases List.mem_map.1 ha with ⟨s, hs, rfl⟩
      simp [h s hs]
    simp only [asOptStrList, asStrings_map_str, hfilter]
    rfl
  · intro field
    exact ⟨by simp [asOptStrList, asStrings], by simp [asOptStrList]⟩
  · intro s field h
    simp [asOptStr, h]
  · rfl

/-- Witness for C10 at concrete inputs. -/
theorem claim_C10_witness :
    (∀ s ∈ ["  ", "", "\t"], pyStrip s = "") ∧
    asOptStrList (.arr ((["  ", "", "\t"] : List String).map Json.str)) "f" = .ok none ∧
    pyStrip " " = "" ∧ asOptStr (.str " ") "g" = .ok none :=
  ⟨by decide, claim_C10_loader_normalizes.1 ["  ", "", "\t"] "f" (by decide),
   by decide, claim_C10_loader_normalizes.2.2.1 " " "g" (by decide)⟩

/-- **C9.**  Discussion-page extraction is total (the embedding returns a
`ParsedQuestion` for every input) and its choice list is never empty:
when no choice selector matched, the result is exactly the placeholder
choice `(None, "N/A (could not parse choices)", False)`. -/
theorem claim_C9_choices_never_empty (html : String) (p : PageModel) :
    (parse_discussion_page html p).choices ≠ [] ∧
    (p.choiceEls = [] →
      (parse_discussion_page html p).choices =
        [(none, "N/A (could not parse choices)", false)]) := by
  constructor
  · simp only [parse_discussion_page]
    split
    · simp
    · next h => simpa [List.isEmpty_iff] using h
  · intro h
    simp [parse_discussion_page, h]

/-- Witness for C9 at a concrete page. -/
theorem claim_C9_witness :
    pageNoChoices.choiceEls = [] ∧
    (parse_discussion_page "<html></html>" pageNoChoices).choices =
      [(none, "N/A (could not parse choices)", false)] :=
  ⟨rfl, (claim_C9_choices_never_empty "<html></html>" pageNoChoices).2 rfl⟩

theorem blankLabels_map_eq (l : List (Option String × String × Bool)) :
    ∀ s, (∀ c ∈ l, labelBlank c = true) →
      ((l.enumFrom s).map (fun p => choice_id_for p.2.1 p.1)) =
        (List.range' s l.length).map (fun i => (⟨[Char.ofNat (65 + i)]⟩ : String)) := by
  induction l with
  | nil => intro s _; rfl
  | cons c cs ih =>
    intro s h
    have hc := h c (List.mem_cons_self c cs)
    have htail := fun d hd => h d (List.mem_cons_of_mem c hd)
    simp only [List.enumFrom, List.map, List.length_cons, List.range', ih (s + 1) htail]
    congr 1
    cases hl : c.1 with
    | none => simp [choice_id_for, hl]
    | some lab =>
      have hblank : pyStrip lab = "" := by
        have := hc
        simp only [labelBlank, hl, beq_iff_eq] at this
        exact this
      simp [choice_id_for, hl, hblank]

theorem fallback_range_nodup (s n : Nat) (h : s + n ≤ 26) :
    ((List.range' s n).map (fun i => (⟨[Char.ofNat (65 + i)]⟩ : String))).Nodup := by
  refine List.Nodup.map_on ?_ (List.nodup_range' s n)
  intro i hi j hj hij
  have hi' : i < 26 := by
    have := List.mem_range'_1.1 hi
    omega
  have hj' : j < 26 := by
    have := List.mem_range'_1.1 hj
    omega
  have key : ∀ a < 26, ∀ b < 26,
      (⟨[Char.ofNat (65 + a)]⟩ : String) = ⟨[Char.ofNat (65 + b)]⟩ → a = b := by decide
  exact key i hi' j hj' hij

/-- **C2 (counterexample).**  As stated the claim fails: two choices with
the same explicit label produce the duplicate choice ids `A`, `A`. -/
theorem claim_C2_counterexample :
    ¬ (((parsed_to_question_dict (fun _ => "") "u" cexParsed).choices.map CDict.id).Nodup) := by
  decide

/-- **C2 (amended).**  Every id in the record's `answer_choice_ids`, when
present, is one of the record's choice ids — unconditionally; the choice
ids are unique within the record whenever every choice's label is absent
or blank (so every id is a distinct fallback letter; at most 26 choices,
the fallback alphabet).  With repeated explicit labels uniqueness can
fail, as the counterexample shows. -/
theorem claim_C2_amended (sha1hex : String → String) (url : String) (pq : ParsedQuestion) :
    (∀ a ∈ (parsed_to_question_dict sha1hex url pq).answer_choice_ids.getD [],
        a ∈ (parsed_to_question_dict sha1hex url pq).choices.map CDict.id) ∧
    ((∀ c ∈ pq.choices, labelBlank c = true) → pq.choices.length ≤ 26 →
      ((parsed_to_question_dict sha1hex url pq).choices.map CDict.id).Nodup) := by
  constructor
  · intro a ha
    simp only [parsed_to_question_dict, List.map_map] at *
    rcases h0 : (pq.choices.enum.filter (fun p => p.2.2.2)).map
        (fun p => choice_id_for p.2.1 p.1) with _ | _
    · rw [h0] at ha
      simp at ha
    · rw [h0] at ha
      simp only [List.isEmpty_iff] at ha
      rw [if_neg (by simp [h0])] at ha
      rw [← h0] at ha
      rcases List.mem_map.1 ha with ⟨p, hp, rfl⟩
      exact List.mem_map_of_mem _ (List.mem_of_mem_filter hp)
  · intro hblank hlen
    simp only [parsed_to_question_dict, List.map_map]
    show ((pq.choices.enumFrom 0).map (fun p => choice_id_for p.2.1 p.1)).Nodup
    rw [blankLabels_map_eq pq.choices 0 hblank]
    exact fallback_range_nodup 0 pq.choices.length (by omega)

/-- Witness for C2 at a concrete unlabeled question. -/
theorem claim_C2_witness :
    (∀ c ∈ wParsed.choices, labelBlank c = true) ∧ wParsed.choices.length ≤ 26 ∧
    ((parsed_to_question_dict (fun _ => "") "u2" wParsed).choices.map CDict.id).Nodup :=
  ⟨by decide, by decide, (claim_C2_amended (fun _ => "") "u2" wParsed).2 (by decide) (by decide)⟩

theorem collectGo_continue (pages : List (String × Except String (List String))) :
    collectGo pages true =
      .ok ((pages.filterMap pageUrls).flatten, (pages.filter (fun p => !pageOk p)).map Prod.fst) := by
  induction pages with
  | nil => rfl
  | cons p rest ih =>
    obtain ⟨u, res⟩ := p
    cases res with
    | ok urls => simp [collectGo, ih, pageUrls, pageOk, List.filterMap_cons]
    | error e => simp [collectGo, ih, pageUrls, pageOk, List.filterMap_cons]

theorem collectGo_failfast (good : List (String × Except String (List String)))
    (u e : String) (rest : List (String × Except String (List String)))
    (h : ∀ p ∈ good, pageOk p = true) :
    collectGo (good ++ (u, .error e) :: rest) false = .error e := by
  induction good with
  | nil => rfl
  | cons p good' ih =>
    obtain ⟨v, res⟩ := p
    cases res with
    | ok urls =>
      have := ih (fun q hq => h q (List.mem_cons_of_mem _ hq))
      simp [collectGo, this]
    | error e2 =>
      have := h (v, .error e2) (List.mem_cons_self _ _)
      simp [pageOk] at this

/-- **C7.**  URL collection with `continue_on_error = true` (the default
configuration) skips each failing list page, records its URL in the
separate failure list, and still collects (and de-duplicates) the URLs of
every other page; with `continue_on_error = false` the first failing page
aborts the whole collection with its error.  (`spec-modelled`: the
collection loop with `continue_on_error` lives in
`question_set_tools/scrape.py`, absent from the sources.) -/
theorem claim_C7_continue_on_error :
    (({} : CollectUrlsConfig).continue_on_error = true) ∧
    (∀ (pages : List (String × Except String (List String))) (w : Nat),
      collect_discussion_urls_from_list_pages pages ⟨w, true⟩ =
        .ok (dedupKeepFirst (pages.filterMap pageUrls).flatten [],
             (pages.filter (fun p => !pageOk p)).map Prod.fst)) ∧
    (∀ (good : List (String × Except String (List String))) (u e : String)
       (rest : List (String × Except String (List String))) (w : Nat),
      (∀ p ∈ good, pageOk p = true) →
      collect_discussion_urls_from_list_pages (good ++ (u, .error e) :: rest) ⟨w, false⟩ =
        .error e) := by
  refine ⟨rfl, ?_, ?_⟩
  · intro pages w
    simp [collect_discussion_urls_from_list_pages, collectGo_continue]
  · intro good u e rest w h
    simp [collect_discussion_urls_from_list_pages, collectGo_failfast good u e rest h]

/-- Witness for C7 at a concrete page list. -/
theorem claim_C7_witness :
    collect_discussion_urls_from_list_pages
        [("p1", .ok ["a", "b"]), ("p2", .error "boom"), ("p3", .ok ["b", "c"])] ⟨10, true⟩ =
      .ok (["a", "b", "c"], ["p2"]) ∧
    (∀ p ∈ [("p1", (.ok ["a", "b"] : Except String (List String)))], pageOk p = true) ∧
    collect_discussion_urls_from_list_pages
        [("p1", .ok ["a", "b"]), ("p2", .error "boom"), ("p3", .ok ["b", "c"])] ⟨10, false⟩ =
      .error "boom" := by
  refine ⟨?_, by decide, ?_⟩
  · rw [claim_C7_continue_on_error.2.1 _ 10]
    rfl
  · exact claim_C7_continue_on_error.2.2 [("p1", .ok ["a", "b"])] "p2" "boom"
      [("p3", .ok ["b", "c"])] 10 (by decide)

theorem range_slices_flatten {α : Type} (k : Nat) (l : List α) :
    ∀ (c i : Nat), ((List.range' i c k).map (fun j => (l.drop j).take k)).flatten =
      (l.drop i).take (c * k) := by
  intro c
  induction c with
  | zero => intro i; simp
  | succ c ih =>
    intro i
    simp only [List.range', List.map, List.flatten_cons, ih (i + k)]
    have hdd : l.drop (i + k) = (l.drop i).drop k := by
      rw [List.drop_drop, Nat.add_comm]
    rw [hdd, ← List.take_add]
    congr 1
    ring

theorem ceil_div_mul_ge (n k : Nat) (hk : 0 < k) : n ≤ ((n + k - 1) / k) * k := by
  have h := Nat.div_add_mod (n + k - 1) k
  have hm := Nat.mod_lt (n + k - 1) hk
  rw [Nat.mul_comm]
  set t := k * ((n + k - 1) / k) with ht
  omega

theorem chunkList_flatten {α : Type} (k : Nat) (hk : 0 < k) (l : List α) :
    (chunkList k l).flatten = l := by
  unfold chunkList
  rw [range_slices_flatten k l _ 0]
  simp only [List.drop_zero]
  exact List.take_of_length_le (ceil_div_mul_ge l.length k hk)

theorem chunkList_length_le {α : Type} (k : Nat) (l : List α) :
    ∀ c ∈ chunkList k l, c.length ≤ k := by
  intro c hc
  rcases List.mem_map.1 hc with ⟨i, _, rfl⟩
  simp

/-- **C8.**  When a chunk size `k` is configured and the question count
exceeds it, export produces one file per chunk, consecutively numbered
with `set_id` suffixed `-<n>`, each chunk holding at most `k` questions,
the chunks concatenating to the unsplit export's question list; otherwise
exactly one file is produced.  In particular chunk size 25 over 60
questions yields 3 files of sizes 25, 25, 10. -/
theorem claim_C8_chunked_export :
    (∀ (sid : String) (k : Int) (qs : List QDict), 0 < k → (k : Int) < qs.length →
      (chunkList k.toNat qs).flatten = qs ∧
      (∀ c ∈ chunkList k.toNat qs, c.length ≤ k.toNat) ∧
      (exportChunks sid (some k) qs).map Prod.fst =
        (List.range (chunkList k.toNat qs).length).map (fun i => sid ++ "-" ++ toString (i + 1)) ∧
      (exportChunks sid (some k) qs).length = (chunkList k.toNat qs).length) ∧
    (∀ (sid : String) (ss : Option Int) (qs : List QDict), shouldSplit ss qs.length = false →
      exportChunks sid ss qs = [(sid, export_question_set sid qs)]) ∧
    ((exportChunks "S" (some 25) (List.replicate 60 dummyRecord)).map Prod.fst =
        ["S-1", "S-2", "S-3"] ∧
      (chunkList 25 (List.replicate 60 dummyRecord)).map List.length = [25, 25, 10]) := by
  refine ⟨?_, ?_, by decide, by decide⟩
  · intro sid k qs hk hlen
    have hcond : shouldSplit (some k) qs.length = true := by
      simp only [shouldSplit]
      have : k ≠ 0 := by omega
      simp [this, hk, hlen]
    refine ⟨chunkList_flatten k.toNat (by omega) qs, chunkList_length_le k.toNat qs, ?_, ?_⟩
    · simp only [exportChunks, hcond, if_true, List.map_map]
      have hcomp : (Prod.fst ∘ fun p : Nat × List QDict =>
          (sid ++ "-" ++ toString (p.1 + 1),
           export_question_set (sid ++ "-" ++ toString (p.1 + 1)) p.2)) =
          (fun i : Nat => sid ++ "-" ++ toString (i + 1)) ∘ Prod.fst := rfl
      rw [hcomp, ← List.map_map, List.enum_map_fst]
    · simp [exportChunks, hcond]
  · intro sid ss qs hcond
    simp [exportChunks, hcond]

/-- Witness for C8 at the concrete 60-question export. -/
theorem claim_C8_witness :
    (0 : Int) < 25 ∧ (25 : Int) < (List.replicate 60 dummyRecord).length ∧
    (chunkList (25 : Int).toNat (List.replicate 60 dummyRecord)).flatten =
      List.replicate 60 dummyRecord :=
  ⟨by decide, by decide,
    (claim_C8_chunked_export.1 "S" 25 (List.replicate 60 dummyRecord)
      (by decide) (by decide)).1⟩

set_option maxRecDepth 8000 in
/-- **C6.**  Top-voted selection: on the two-block discussion of spec §8
the 20-vote block wins and the output begins with
`Top voted (20 votes)`; when no vote marker matches, the trimmed blob is
returned unstructured (`None` when it is empty); and the block picked by
`pickTopVoted` always carries the maximal vote count, ties broken by the
first occurrence (every earlier block is strictly smaller, every later
one no larger). -/
theorem claim_C6_top_voted :
    (format_top_voted_explanation (some exDiscussion) = some exTopVoted ∧
      exTopVoted.data.take 20 = "Top voted (20 votes)".data) ∧
    (∀ d : String, d ≠ "" → voteSegments (prepDiscussion d) = [] →
      format_top_voted_explanation (some d) =
        (if (prepDiscussion d).isEmpty then none else some ⟨prepDiscussion d⟩)) ∧
    (∀ (bb : Nat × List Char) (bs : List (Nat × List Char)),
      ∃ l1 l2, bb :: bs = l1 ++ pickTopVoted bs bb :: l2 ∧
        (∀ x ∈ l1, x.1 < (pickTopVoted bs bb).1) ∧
        (∀ x ∈ l2, x.1 ≤ (pickTopVoted bs bb).1)) := by
  refine ⟨⟨by decide, by decide⟩, ?_, ?_⟩
  · intro d hd hseg
    simp only [format_top_voted_explanation, if_neg hd, hseg]
  · intro bb bs
    induction bs generalizing bb with
    | nil => exact ⟨[], [], rfl, by simp, by simp⟩
    | cons x xs ih =>
      have hred : pickTopVoted (x :: xs) bb =
          pickTopVoted xs (if bb.1 < x.1 then x else bb) := rfl
      rw [hred]
      by_cases hx : bb.1 < x.1
      · rw [if_pos hx]
        obtain ⟨l1, l2, heq, h1, h2⟩ := ih x
        have hxr : x.1 ≤ (pickTopVoted xs x).1 := by
          cases l1 with
          | nil =>
            simp only [List.nil_append] at heq
            injection heq with hr _
            exact le_of_eq (congrArg Prod.fst hr)
          | cons a l1' =>
            simp only [List.cons_append] at heq
            injection heq with hr _
            have hlt := h1 a (List.mem_cons_self a l1')
            have hxa : x.1 = a.1 := congrArg Prod.fst hr
            omega
        refine ⟨bb :: l1, l2, by rw [List.cons_append, ← heq], ?_, h2⟩
        intro y hy
        rcases List.mem_cons.1 hy with rfl | hy
        · omega
        · exact h1 y hy
      · rw [if_neg hx]
        obtain ⟨l1, l2, heq, h1, h2⟩ := ih bb
        cases l1 with
        | nil =>
          simp only [List.nil_append] at heq
          injection heq with hr hl2
          refine ⟨[], x :: xs, by simp [← hr], by simp, ?_⟩
          intro y hy
          rcases List.mem_cons.1 hy with rfl | hy
          · rw [← hr]; omega
          · exact h2 y (hl2 ▸ hy)
        | cons a l1' =>
          simp only [List.cons_append] at heq
          injection heq with ha htail
          have hbbr : bb.1 < (pickTopVoted xs bb).1 := by
            have hlt := h1 a (List.mem_cons_self a l1')
            have hba : bb.1 = a.1 := congrArg Prod.fst ha
            omega
          refine ⟨bb :: x :: l1', l2, ?_, ?_, h2⟩
          · simp only [List.cons_append]
            rw [← htail]
          · intro y hy
            rcases List.mem_cons.1 hy with rfl | hy
            · exact hbbr
            · rcases List.mem_cons.1 hy with rfl | hy
              · omega
              · exact h1 y (List.mem_cons_of_mem a hy)

/-- Witness for C6 at a marker-free discussion. -/
theorem claim_C6_witness :
    ("plain comment" : String) ≠ "" ∧
    voteSegments (prepDiscussion "plain comment") = [] ∧
    format_top_voted_explanation (some "plain comment") =
      (if (prepDiscussion "plain comment").isEmpty then none
       else some ⟨prepDiscussion "plain comment"⟩) :=
  ⟨by decide, by decide, claim_C6_top_voted.2.1 "plain comment" (by decide) (by decide)⟩

theorem stripTrailing_prefixOf (m : List Char) : stripTrailing m <+: m := by
  obtain ⟨t, ht⟩ := List.dropWhile_suffix (l := m.reverse) (p := isPySpace)
  exact ⟨t.reverse, by rw [stripTrailing, ← List.reverse_append, ht, List.reverse_reverse]⟩

theorem pyStripList_infixOf (l : List Char) : pyStripList l <:+: l :=
  ((stripTrailing_prefixOf (stripLeading l)).isInfix).trans
    (List.dropWhile_suffix (l := l) (p := isPySpace)).isInfix

theorem stripTrailing_append_ws (m : List Char) (c : Char) (hc : isPySpace c = true) :
    stripTrailing (m ++ [c]) = stripTrailing m := by
  unfold stripTrailing
  rw [List.reverse_append]
  simp [List.dropWhile_cons, hc]

theorem pyStripList_append_ws (l : List Char) (c : Char) (hc : isPySpace c = true) :
    pyStripList (l ++ [c]) = pyStripList l := by
  unfold pyStripList stripLeading
  rw [List.dropWhile_append]
  by_cases h : (l.dropWhile isPySpace).isEmpty
  · rw [if_pos h, List.isEmpty_iff.1 h]
    simp [List.dropWhile_cons, hc]
  · rw [if_neg h]
    exact stripTrailing_append_ws _ c hc

theorem subShowHideTail_shape (t : List Char) :
    (∃ n, subShowHideTail t = t.take n) ∨ (∃ n, subShowHideTail t = t.take n ++ ['\n']) := by
  induction t with
  | nil => exact Or.inl ⟨0, rfl⟩
  | cons c cs ih =>
    by_cases h : uiTailMatchesHere (c :: cs)
    · unfold subShowHideTail keptNewline
      rw [if_pos h]
      by_cases hnl : (c :: cs).getLast? == some '\n'
      · exact Or.inr ⟨0, by rw [if_pos hnl]; rfl⟩
      · exact Or.inl ⟨0, by rw [if_neg hnl]; rfl⟩
    · unfold subShowHideTail
      rw [if_neg h]
      rcases ih with ⟨n, hn⟩ | ⟨n, hn⟩
      · exact Or.inl ⟨n + 1, by rw [List.take_succ_cons, hn]⟩
      · exact Or.inr ⟨n + 1, by rw [List.take_succ_cons, List.cons_append, hn]⟩

theorem subSuggestedColonTail_shape (t : List Char) :
    (∃ n, subSuggestedColonTail t = t.take n) ∨
      (∃ n, subSuggestedColonTail t = t.take n ++ ['\n']) := by
  induction t with
  | nil => exact Or.inl ⟨0, rfl⟩
  | cons c cs ih =>
    by_cases h : sugColonMatchesHere (c :: cs)
    · unfold subSuggestedColonTail keptNewline
      rw [if_pos h]
      by_cases hnl : (c :: cs).getLast? == some '\n'
      · exact Or.inr ⟨0, by rw [if_pos hnl]; rfl⟩
      · exact Or.inl ⟨0, by rw [if_neg hnl]; rfl⟩
    · unfold subSuggestedColonTail
      rw [if_neg h]
      rcases ih with ⟨n, hn⟩ | ⟨n, hn⟩
      · exact Or.inl ⟨n + 1, by rw [List.take_succ_cons, hn]⟩
      · exact Or.inr ⟨n + 1, by rw [List.take_succ_cons, List.cons_append, hn]⟩

theorem stripSub1_infixOf (t : List Char) : pyStripList (subShowHideTail t) <:+: t := by
  rcases subShowHideTail_shape t with ⟨n, hn⟩ | ⟨n, hn⟩
  · rw [hn]
    exact (pyStripList_infixOf _).trans (List.take_prefix n t).isInfix
  · rw [hn, pyStripList_append_ws _ _ (by decide)]
    exact (pyStripList_infixOf _).trans (List.take_prefix n t).isInfix

theorem stripSub2_infixOf (t : List Char) : pyStripList (subSuggestedColonTail t) <:+: t := by
  rcases subSuggestedColonTail_shape t with ⟨n, hn⟩ | ⟨n, hn⟩
  · rw [hn]
    exact (pyStripList_infixOf _).trans (List.take_prefix n t).isInfix
  · rw [hn, pyStripList_append_ws _ _ (by decide)]
    exact (pyStripList_infixOf _).trans (List.take_prefix n t).isInfix

theorem inline_step_infixOf (u : List Char) :
    (if ((findInlineIdx 'A' u).isSome && (findInlineIdx 'B' u).isSome) = true then
      match findInlineIdx 'A' u with
      | some i => pyStripList (u.take i)
      | none => u
    else u) <:+: u := by
  split
  · split
    · next i _ => exact (pyStripList_infixOf _).trans (List.take_prefix i u).isInfix
    · exact List.infix_rfl
  · exact List.infix_rfl

theorem normalizeText_infixOf (t : List Char) : normalizeText t <:+: t := by
  simp only [normalizeText]
  split
  · exact (inline_step_infixOf _).trans (stripSub2_infixOf t)
  · exact (inline_step_infixOf _).trans (stripSub1_infixOf t)

theorem matchCI_append (p : List Char) :
    ∀ (u v r : List Char), matchCI p u = some r → matchCI p (u ++ v) = some (r ++ v) := by
  induction p with
  | nil =>
    intro u v r h
    simp only [matchCI, Option.some.injEq] at h
    subst h
    rfl
  | cons pc ps ih =>
    intro u v r h
    match u with
    | [] => simp [matchCI] at h
    | c :: cs =>
      simp only [matchCI] at h ⊢
      by_cases hc : pc == c.toLower
      · rw [if_pos hc] at h ⊢
        exact ih cs v r h
      · rw [if_neg hc] at h
        exact absurd h (by simp)

theorem dropWhile_append_cons (p : Char → Bool) (l v : List Char) (c : Char) (t : List Char)
    (h : l.dropWhile p = c :: t) : (l ++ v).dropWhile p = c :: (t ++ v) := by
  rw [List.dropWhile_append, h]
  simp

theorem matchAnswerMarker_append (w u v cap : List Char)
    (h : matchAnswerMarker w u = some cap) :
    ∃ cap2, matchAnswerMarker w (u ++ v) = some cap2 := by
  unfold matchAnswerMarker at h ⊢
  split at h
  · exact absurd h (by simp)
  · next r1 heq1 =>
    rw [matchCI_append w u v r1 heq1]
    split at h
    · exact absurd h (by simp)
    · next r2 heq2 =>
      obtain ⟨d, ds, hds⟩ : ∃ d ds, skipWs r1 = d :: ds := by
        cases hsw : skipWs r1 with
        | nil => rw [hsw] at heq2; exact absurd heq2 (by simp [matchCI])
        | cons d ds => exact ⟨d, ds, rfl⟩
      rw [show skipWs (r1 ++ v) = d :: (ds ++ v) from dropWhile_append_cons _ r1 v d ds hds]
      rw [hds] at heq2
      have h2' := matchCI_append "answer".data (d :: ds) v r2 heq2
      rw [List.cons_append] at h2'
      rw [h2']
      try dsimp only
      split at h
      · next r3 heq3 =>
        split at h
        · next y r4 heq4 =>
          by_cases hy : y.isAlpha
          · refine ⟨y :: List.takeWhile (fun d => d.isAlpha || isPySpace d || d == ',') (r4 ++ v), ?_⟩
            simp [show skipWs (r2 ++ v) = ':' :: (r3 ++ v) from
                    dropWhile_append_cons _ r2 v ':' r3 heq3,
                  show skipWs (r3 ++ v) = y :: (r4 ++ v) from
                    dropWhile_append_cons _ r3 v y r4 heq4, hy]
          · rw [if_neg hy] at h
            exact absurd h (by simp)
        · exact absurd h (by simp)
      · exact absurd h (by simp)

theorem searchAnswerMarker_none_iff (w : List Char) :
    ∀ s, searchAnswerMarker w s = none ↔ ∀ u, u <:+ s → matchAnswerMarker w u = none := by
  have hnil : matchAnswerMarker w [] = none := by
    unfold matchAnswerMarker
    cases w with
    | nil => rfl
    | cons c cs => rfl
  intro s
  induction s with
  | nil =>
    simp only [searchAnswerMarker, true_iff]
    intro u hu
    rw [List.suffix_nil.1 hu]
    exact hnil
  | cons c cs ih =>
    constructor
    · intro h u hu
      have hsplit : matchAnswerMarker w (c :: cs) = none ∧ searchAnswerMarker w cs = none := by
        unfold searchAnswerMarker at h
        cases hm : matchAnswerMarker w (c :: cs) with
        | some cap => rw [hm] at h; exact absurd h (by simp)
        | none => rw [hm] at h; exact ⟨rfl, h⟩
      rcases List.suffix_cons_iff.1 hu with rfl | hu
      · exact hsplit.1
      · exact (ih.1 hsplit.2) u hu
    · intro h
      unfold searchAnswerMarker
      rw [h (c :: cs) List.suffix_rfl]
      exact ih.2 (fun u hu => h u (List.suffix_cons_iff.2 (Or.inr hu)))

theorem searchAnswerMarker_some_suffix (w : List Char) :
    ∀ s cap, searchAnswerMarker w s = some cap →
      ∃ u, u <:+ s ∧ matchAnswerMarker w u = some cap := by
  intro s
  induction s with
  | nil => intro cap h; exact absurd h (by simp [searchAnswerMarker])
  | cons c cs ih =>
    intro cap h
    unfold searchAnswerMarker at h
    cases hm : matchAnswerMarker w (c :: cs) with
    | some cap2 =>
      rw [hm] at h
      dsimp only at h
      cases h
      exact ⟨c :: cs, List.suffix_rfl, hm⟩
    | none =>
      rw [hm] at h
      dsimp only at h
      obtain ⟨u, hu, hmu⟩ := ih cap h
      exact ⟨u, List.suffix_cons_iff.2 (Or.inr hu), hmu⟩

theorem matchAnswerMarker_cap_cons (w u cap : List Char)
    (h : matchAnswerMarker w u = some cap) :
    ∃ c r, cap = c :: r ∧ c.isAlpha = true := by
  unfold matchAnswerMarker at h
  split at h
  · exact absurd h (by simp)
  · split at h
    · exact absurd h (by simp)
    · split at h
      · split at h
        · next y r4 _ =>
          by_cases hy : y.isAlpha
          · rw [if_pos hy] at h
            exact ⟨y, _, (Option.some.inj h).symm, hy⟩
          · rw [if_neg hy] at h
            exact absurd h (by simp)
        · exact absurd h (by simp)
      · exact absurd h (by simp)

theorem searchAnswerMarker_some_ne_nil (w t cap : List Char)
    (h : searchAnswerMarker w t = some cap) :
    (dedupChars (lettersOf cap) []).map Char.toString ≠ [] := by
  obtain ⟨u, _, hmu⟩ := searchAnswerMarker_some_suffix w t cap h
  obtain ⟨c, r, rfl, hc⟩ := matchAnswerMarker_cap_cons w u cap hmu
  simp [lettersOf, List.filter_cons, hc, dedupChars]

theorem answerLabelsList_nil (t : List Char) (h : answerLabelsList t = []) :
    searchAnswerMarker "suggested".data t = none ∧
      searchAnswerMarker "correct".data t = none := by
  unfold answerLabelsList at h
  cases hs : searchAnswerMarker "suggested".data t with
  | some cap =>
    rw [hs] at h
    exact absurd h (searchAnswerMarker_some_ne_nil _ t cap hs)
  | none =>
    rw [hs] at h
    cases hc : searchAnswerMarker "correct".data t with
    | some cap =>
      rw [hc] at h
      exact absurd h (searchAnswerMarker_some_ne_nil _ t cap hc)
    | none => exact ⟨rfl, rfl⟩

theorem answerLabelsList_infix_nil (t u : List Char) (hinf : u <:+: t)
    (h : answerLabelsList t = []) : answerLabelsList u = [] := by
  obtain ⟨hsug, hcor⟩ := answerLabelsList_nil t h
  have key : ∀ w, searchAnswerMarker w t = none → searchAnswerMarker w u = none := by
    intro w hw
    rw [searchAnswerMarker_none_iff]
    intro x hx
    cases hm : matchAnswerMarker w x with
    | none => rfl
    | some cap =>
      exfalso
      obtain ⟨p, q, hpq⟩ := hinf
      obtain ⟨r, hr⟩ := hx
      obtain ⟨cap2, hcap2⟩ := matchAnswerMarker_append w x q cap hm
      have hsuf : (x ++ q) <:+ t := by
        refine ⟨p ++ r, ?_⟩
        rw [← hpq, ← hr]
        simp [List.append_assoc]
      have := (searchAnswerMarker_none_iff w t).1 hw (x ++ q) hsuf
      rw [this] at hcap2
      exact absurd hcap2 (by simp)
  unfold answerLabelsList
  rw [key _ hsug, key _ hcor]

/-- **C3 (counterexample).**  As stated the claim fails: on a record
whose text carries both a `Suggested Answer:` marker and a `Hide Answer`
tail, the first normalization strips only the tail and the second strips
the then-exposed `Suggested Answer:` marker, so
`normalize(normalize(r)) ≠ normalize(r)`. -/
theorem claim_C3_counterexample :
    normalize_question_dict (normalize_question_dict cexRecord) ≠
      normalize_question_dict cexRecord := by
  decide

/-- **C3 (amended).**  The normalizer is idempotent on every record whose
question-text cleanup reaches a fixed point after one pass (in
particular on every record whose text is already clean); the
counterexample shows that on a text where one pass exposes a marker for
the next, a second application can strip further, so unrestricted
idempotence fails. -/
theorem claim_C3_amended (q : QDict)
    (hfix : normalizeText (normalizeText q.text.data) = normalizeText q.text.data) :
    normalize_question_dict (normalize_question_dict q) = normalize_question_dict q := by
  obtain ⟨qid, qtext, qchoices, qids, qmulti, qexpl, qtags⟩ := q
  have hmono : (answerLabelsList qtext.data).isEmpty = true →
      (answerLabelsList (normalizeText qtext.data)).isEmpty = true := by
    intro hl
    rw [List.isEmpty_iff] at hl ⊢
    exact answerLabelsList_infix_nil qtext.data (normalizeText qtext.data)
      (normalizeText_infixOf qtext.data) hl
  simp only [normalize_question_dict] at *
  cases qids with
  | some l =>
    cases qmulti with
    | some b => simp_all
    | none => simp_all
  | none =>
    cases hl : (answerLabelsList qtext.data).isEmpty with
    | true =>
      have h2 := hmono hl
      cases qmulti with
      | some b => simp_all
      | none => simp_all
    | false =>
      cases qmulti with
      | some b => simp_all
      | none => simp_all

/-- Witness for C3 at a record with clean text. -/
theorem claim_C3_witness :
    normalizeText (normalizeText dummyRecord.text.data) = normalizeText dummyRecord.text.data ∧
    normalize_question_dict (normalize_question_dict dummyRecord) =
      normalize_question_dict dummyRecord :=
  ⟨by decide, claim_C3_amended dummyRecord (by decide)⟩

theorem dropWhile_self (p : Char → Bool) (l : List Char) :
    (l.dropWhile p).dropWhile p = l.dropWhile p := by
  induction l with
  | nil => rfl
  | cons c cs ih =>
    rw [List.dropWhile_cons]
    split
    · exact ih
    · next hc => rw [List.dropWhile_cons, if_neg hc]

theorem dropWhile_prefix_of_eq (p : Char → Bool) (y z : List Char) (hz : z <+: y)
    (hy : y.dropWhile p = y) : z.dropWhile p = z := by
  cases z with
  | nil => rfl
  | cons c t =>
    cases y with
    | nil => exact absurd (List.eq_nil_of_prefix_nil hz) (by simp)
    | cons d u =>
      obtain ⟨w, hw⟩ := hz
      have hcd : c = d := by
        have := congrArg (fun l => l.headD ' ') hw
        simpa using this
      subst hcd
      rw [List.dropWhile_cons] at hy ⊢
      split at hy
      · next hpc =>
        exfalso
        have hlen := congrArg List.length hy
        have := (List.dropWhile_sublist (l := u) (p := p)).length_le
        simp at hlen
        omega
      · next hpc => rw [if_neg hpc]

theorem stripTrailing_self (m : List Char) :
    stripTrailing (stripTrailing m) = stripTrailing m := by
  unfold stripTrailing
  rw [List.reverse_reverse, dropWhile_self]

theorem stripLeading_stripTrailing (x : List Char) (hx : stripLeading x = x) :
    stripLeading (stripTrailing x) = stripTrailing x :=
  dropWhile_prefix_of_eq isPySpace x (stripTrailing x) (stripTrailing_prefixOf x) hx

theorem pyStripList_idem (l : List Char) :
    pyStripList (pyStripList l) = pyStripList l := by
  unfold pyStripList
  rw [stripLeading_stripTrailing (stripLeading l) (dropWhile_self isPySpace l),
    stripTrailing_self]

theorem pyStrip_idem (s : String) : pyStrip (pyStrip s) = pyStrip s :=
  congrArg String.mk (pyStripList_idem s.data)

theorem asStr_ok (x : Json) (field s : String) (h : asStr x field = .ok s) :
    x = .str s ∧ pyStrip s ≠ "" := by
  cases x <;> simp only [asStr] at h
  case str s0 =>
    split at h
    · exact absurd h (by simp)
    · next hne =>
      cases h
      exact ⟨rfl, hne⟩
  all_goals exact absurd h (by simp)

theorem asStr_build (s : String) (field : String) (h : pyStrip s ≠ "") :
    asStr (.str s) field = .ok s := by
  simp [asStr, h]

theorem asOptStr_roundtrip (x : Json) (f f2 : String) (r : Option String)
    (h : asOptStr x f = .ok r) : asOptStr (jOptStr r) f2 = .ok r := by
  cases x <;> simp only [asOptStr] at h
  case null =>
    cases h
    rfl
  case str s =>
    cases h
    by_cases hs : pyStrip s = ""
    · simp [hs, jOptStr, asOptStr]
    · simp [hs, jOptStr, asOptStr, pyStrip_idem]
  all_goals exact absurd h (by simp)

theorem asOptStrList_roundtrip (x : Json) (f f2 : String) (r : Option (List String))
    (h : asOptStrList x f = .ok r) : asOptStrList (jOptStrList r) f2 = .ok r := by
  cases x <;> simp only [asOptStrList] at h
  case null =>
    cases h
    rfl
  case arr items =>
    cases hstrs : asStrings items with
    | none => rw [hstrs] at h; exact absurd h (by simp)
    | some strs =>
      rw [hstrs] at h
      dsimp only at h
      set out := (strs.map pyStrip).filter (fun s => decide (s ≠ "")) with hout
      have helem : ∀ s ∈ out, pyStrip s = s ∧ s ≠ "" := by
        intro s hs
        rw [hout] at hs
        have hmem := List.mem_filter.1 hs
        obtain ⟨s0, _, rfl⟩ := List.mem_map.1 hmem.1
        refine ⟨congrArg String.mk (pyStripList_idem s0.data), ?_⟩
        have := hmem.2
        simpa using this
      by_cases hempty : out.isEmpty
      · rw [if_pos hempty] at h
        cases h
        rfl
      · rw [if_neg hempty] at h
        cases h
        simp only [jOptStrList, asOptStrList, asStrings_map_str]
        have hmap : out.map pyStrip = out := by
          have hcg := List.map_congr_left (l := out) (f := pyStrip) (g := id)
            (fun s hs => (helem s hs).1)
          simpa using hcg
        have hfilter : (out.map pyStrip).filter (fun s => decide (s ≠ "")) = out := by
          rw [hmap, List.filter_eq_self]
          intro s hs
          simpa using (helem s hs).2
        rw [hfilter]
        simp [hempty]
  all_goals exact absurd h (by simp)

theorem asOptBool_roundtrip (x : Json) (f f2 : String) (r : Option Bool)
    (h : asOptBool x f = .ok r) : asOptBool (jOptBool r) f2 = .ok r := by
  cases x <;> simp only [asOptBool] at h
  case null =>
    cases h
    rfl
  case bool b =>
    cases h
    rfl
  all_goals exact absurd h (by simp)

theorem reqStr_ok (kvs : List (String × Json)) (k f s : String)
    (h : reqStr kvs k f = .ok s) : jlookup kvs k = some (.str s) ∧ pyStrip s ≠ "" := by
  unfold reqStr jrequire at h
  cases hl : jlookup kvs k with
  | none => rw [hl] at h; exact absurd h (by simp)
  | some v =>
    rw [hl] at h
    dsimp only at h
    obtain ⟨rfl, hne⟩ := asStr_ok v f s h
    exact ⟨rfl, hne⟩

theorem reqStr_serializeChoice_id (cid ctext f : String) (h : pyStrip cid ≠ "") :
    reqStr [("id", .str cid), ("text", .str ctext)] "id" f = .ok cid := by
  unfold reqStr jrequire
  rw [show jlookup [("id", Json.str cid), ("text", Json.str ctext)] "id" =
    some (.str cid) from rfl]
  exact asStr_build cid f h

theorem reqStr_serializeChoice_text (cid ctext f : String) (h : pyStrip ctext ≠ "") :
    reqStr [("id", .str cid), ("text", .str ctext)] "text" f = .ok ctext := by
  unfold reqStr jrequire
  rw [show jlookup [("id", Json.str cid), ("text", Json.str ctext)] "text" =
    some (.str ctext) from rfl]
  exact asStr_build ctext f h

theorem parseChoices_length (qid : String) (i : Nat) (raws : List Json) :
    ∀ j seen cs, parseChoices qid i raws j seen = .ok cs → cs.length = raws.length := by
  induction raws with
  | nil =>
    intro j seen cs h
    simp only [parseChoices, Except.ok.injEq] at h
    rw [← h]
    rfl
  | cons c rest ih =>
    intro j seen cs h
    unfold parseChoices at h
    split at h
    · split at h
      · exact absurd h (by simp)
      · split at h
        · exact absurd h (by simp)
        · split at h
          · exact absurd h (by simp)
          · split at h
            · exact absurd h (by simp)
            · next tail htail =>
              cases h
              simp [ih _ _ _ htail]
    · exact absurd h (by simp)

theorem parseChoices_roundtrip (qid : String) (i : Nat) (raws : List Json) :
    ∀ j seen cs, parseChoices qid i raws j seen = .ok cs →
      ∀ (qid2 : String) (i2 j2 : Nat),
        parseChoices qid2 i2 (cs.map serializeChoice) j2 seen = .ok cs := by
  induction raws with
  | nil =>
    intro j seen cs h qid2 i2 j2
    simp only [parseChoices, Except.ok.injEq] at h
    rw [← h]
    rfl
  | cons c rest ih =>
    intro j seen cs h qid2 i2 j2
    unfold parseChoices at h
    split at h
    · split at h
      · exact absurd h (by simp)
      · next cid hcid =>
        split at h
        · exact absurd h (by simp)
        · next hnotin =>
          split at h
          · exact absurd h (by simp)
          · next ctext hctext =>
            split at h
            · exact absurd h (by simp)
            · next tail htail =>
              cases h
              obtain ⟨-, hcidne⟩ := reqStr_ok _ _ _ _ hcid
              obtain ⟨-, hctextne⟩ := reqStr_ok _ _ _ _ hctext
              show parseChoices qid2 i2
                (serializeChoice ⟨cid, ctext⟩ :: tail.map serializeChoice) j2 seen = _
              unfold parseChoices serializeChoice
              dsimp only
              rw [reqStr_serializeChoice_id cid ctext _ hcidne]
              dsimp only
              rw [if_neg hnotin]
              rw [reqStr_serializeChoice_text cid ctext _ hctextne]
              dsimp only
              rw [show List.map
                    (fun c => Json.obj [("id", Json.str c.id), ("text", Json.str c.text)]) tail =
                  List.map serializeChoice tail from rfl,
                ih _ _ _ htail qid2 i2 (j2 + 1)]
    · exact absurd h (by simp)

theorem reqStr_of_lookup (kvs : List (String × Json)) (k f s : String)
    (hl : jlookup kvs k = some (.str s)) (hs : pyStrip s ≠ "") :
    reqStr kvs k f = .ok s := by
  unfold reqStr jrequire
  rw [hl]
  exact asStr_build s f hs

theorem parseQuestion_build (i2 : Nat) (seen : List String) (qid qtext : String)
    (choices : List Choice) (ids : Option (List String)) (multi : Option Bool)
    (expl : Option String) (tags : Option (List String))
    (hqidne : pyStrip qid ≠ "") (hqtextne : pyStrip qtext ≠ "")
    (hnotin : qid ∉ seen) (hchne : choices ≠ [])
    (hch : parseChoices qid i2 (choices.map serializeChoice) 1 [] = .ok choices)
    (hids : asOptStrList (jOptStrList ids)
      ("questions[" ++ toString i2 ++ "].answer_choice_ids") = .ok ids)
    (hmulti : asOptBool (jOptBool multi)
      ("questions[" ++ toString i2 ++ "].is_multi_select") = .ok multi)
    (hexpl : asOptStr (jOptStr expl)
      ("questions[" ++ toString i2 ++ "].explanation") = .ok expl)
    (htags : asOptStrList (jOptStrList tags)
      ("questions[" ++ toString i2 ++ "].tags") = .ok tags)
    (hunk : ((match ids with | some l => l | none => []).filter
      (fun cid => decide (¬ cid ∈ choices.map Choice.id))).isEmpty = true) :
    parseQuestion i2 seen (serializeQuestion ⟨qid, qtext, choices, ids, multi, expl, tags⟩) =
      .ok ⟨qid, qtext, choices, ids, multi, expl, tags⟩ := by
  unfold parseQuestion serializeQuestion
  dsimp only
  rw [reqStr_of_lookup [("id", Json.str qid), ("text", Json.str qtext),
      ("choices", Json.arr (choices.map serializeChoice)),
      ("answer_choice_ids", jOptStrList ids),
      ("is_multi_select", jOptBool multi),
      ("explanation", jOptStr expl),
      ("tags", jOptStrList tags)] "id" _ qid rfl hqidne]
  dsimp only
  rw [if_neg hnotin]
  rw [reqStr_of_lookup [("id", Json.str qid), ("text", Json.str qtext),
      ("choices", Json.arr (choices.map serializeChoice)),
      ("answer_choice_ids", jOptStrList ids),
      ("is_multi_select", jOptBool multi),
      ("explanation", jOptStr expl),
      ("tags", jOptStrList tags)] "text" _ qtext rfl hqtextne]
  dsimp only
  rw [show jrequire [("id", Json.str qid), ("text", Json.str qtext),
      ("choices", Json.arr (choices.map serializeChoice)),
      ("answer_choice_ids", jOptStrList ids),
      ("is_multi_select", jOptBool multi),
      ("explanation", jOptStr expl),
      ("tags", jOptStrList tags)] "choices" =
    .ok (.arr (choices.map serializeChoice)) from rfl]
  dsimp only
  rw [if_neg (by
    simp only [List.isEmpty_iff, List.map_eq_nil_iff]
    exact hchne)]
  rw [hch]
  dsimp only
  rw [show jget [("id", Json.str qid), ("text", Json.str qtext),
      ("choices", Json.arr (choices.map serializeChoice)),
      ("answer_choice_ids", jOptStrList ids),
      ("is_multi_select", jOptBool multi),
      ("explanation", jOptStr expl),
      ("tags", jOptStrList tags)] "answer_choice_ids" = jOptStrList ids from rfl]
  rw [hids]
  dsimp only
  rw [if_pos hunk]
  rw [show jget [("id", Json.str qid), ("text", Json.str qtext),
      ("choices", Json.arr (choices.map serializeChoice)),
      ("answer_choice_ids", jOptStrList ids),
      ("is_multi_select", jOptBool multi),
      ("explanation", jOptStr expl),
      ("tags", jOptStrList tags)] "is_multi_select" = jOptBool multi from rfl]
  rw [hmulti]
  dsimp only
  rw [show jget [("id", Json.str qid), ("text", Json.str qtext),
      ("choices", Json.arr (choices.map serializeChoice)),
      ("answer_choice_ids", jOptStrList ids),
      ("is_multi_select", jOptBool multi),
      ("explanation", jOptStr expl),
      ("tags", jOptStrList tags)] "explanation" = jOptStr expl from rfl]
  rw [hexpl]
  dsimp only
  rw [show jget [("id", Json.str qid), ("text", Json.str qtext),
      ("choices", Json.arr (choices.map serializeChoice)),
      ("answer_choice_ids", jOptStrList ids),
      ("is_multi_select", jOptBool multi),
      ("explanation", jOptStr expl),
      ("tags", jOptStrList tags)] "tags" = jOptStrList tags from rfl]
  rw [htags]

theorem parseQuestion_roundtrip (i : Nat) (seen : List String) (q : Json) (pq : Question)
    (h : parseQuestion i seen q = .ok pq) (i2 : Nat) :
    parseQuestion i2 seen (serializeQuestion pq) = .ok pq := by
  unfold parseQuestion at h
  split at h
  · next kvs =>
    split at h
    · exact absurd h (by simp)
    · next qid hqid =>
      split at h
      · exact absurd h (by simp)
      · next hnotin =>
        split at h
        · exact absurd h (by simp)
        · next qtext hqtext =>
          split at h
          · exact absurd h (by simp)
          · next citems hchraw =>
            split at h
            · exact absurd h (by simp)
            · next hne =>
              split at h
              · exact absurd h (by simp)
              · next choices hchoices =>
                have hchne : choices ≠ [] := by
                  intro hnil
                  have hlen := parseChoices_length qid i citems 1 [] choices hchoices
                  rw [hnil] at hlen
                  cases citems with
                  | nil => exact hne rfl
                  | cons a b => simp at hlen
                split at h
                · exact absurd h (by simp)
                · next ids hids =>
                  obtain ⟨-, hqidne⟩ := reqStr_ok _ _ _ _ hqid
                  obtain ⟨-, hqtextne⟩ := reqStr_ok _ _ _ _ hqtext
                  have hch2 := parseChoices_roundtrip qid i citems 1 [] choices hchoices qid i2 1
                  split at h
                  · next l =>
                    dsimp only at h
                    by_cases hunk : (List.filter
                        (fun cid => decide (¬ cid ∈ choices.map Choice.id)) l).isEmpty = true
                    · rw [if_pos hunk] at h
                      split at h
                      · exact absurd h (by simp)
                      · next multi hmulti =>
                        split at h
                        · exact absurd h (by simp)
                        · next expl hexpl =>
                          split at h
                          · exact absurd h (by simp)
                          · next tags htags =>
                            cases h
                            exact parseQuestion_build i2 seen qid qtext choices (some l)
                              multi expl tags hqidne hqtextne hnotin hchne hch2
                              (asOptStrList_roundtrip _ _ _ _ hids)
                              (asOptBool_roundtrip _ _ _ _ hmulti)
                              (asOptStr_roundtrip _ _ _ _ hexpl)
                              (asOptStrList_roundtrip _ _ _ _ htags) hunk
                    · rw [if_neg hunk] at h
                      exact absurd h (by simp)
                  · dsimp only at h
                    rw [if_pos (show (List.filter
                        (fun cid => decide (¬ cid ∈ choices.map Choice.id))
                        []).isEmpty = true from rfl)] at h
                    split at h
                    · exact absurd h (by simp)
                    · next multi hmulti =>
                      split at h
                      · exact absurd h (by simp)
                      · next expl hexpl =>
                        split at h
                        · exact absurd h (by simp)
                        · next tags htags =>
                          cases h
                          exact parseQuestion_build i2 seen qid qtext choices none
                            multi expl tags hqidne hqtextne hnotin hchne hch2
                            (asOptStrList_roundtrip _ _ _ _ hids)
                            (asOptBool_roundtrip _ _ _ _ hmulti)
                            (asOptStr_roundtrip _ _ _ _ hexpl)
                            (asOptStrList_roundtrip _ _ _ _ htags) rfl
          · exact absurd h (by simp)
  · exact absurd h (by simp)

theorem parseQuestions_roundtrip (raws : List Json) :
    ∀ i seen qs, parseQuestions raws i seen = .ok qs →
      ∀ i2, parseQuestions (qs.map serializeQuestion) i2 seen = .ok qs := by
  induction raws with
  | nil =>
    intro i seen qs h i2
    simp only [parseQuestions, Except.ok.injEq] at h
    rw [← h]
    rfl
  | cons q rest ih =>
    intro i seen qs h i2
    unfold parseQuestions at h
    split at h
    · exact absurd h (by simp)
    · next pq hpq =>
      split at h
      · exact absurd h (by simp)
      · next tail htail =>
        cases h
        show parseQuestions (serializeQuestion pq :: tail.map serializeQuestion) i2 seen = _
        unfold parseQuestions
        rw [parseQuestion_roundtrip i seen q pq hpq i2]
        dsimp only
        rw [ih _ _ _ htail (i2 + 1)]

/-- **C4 (counterexample).**  The claim as stated — document-level
round-trip `serialize(parse(doc)) = doc` for every valid document —
fails: a valid document whose `explanation` carries surrounding
whitespace parses successfully, but the loader strips the field, so the
serialization of the parse differs from the original document. -/
theorem claim_C4_counterexample :
    parse_question_set cexDoc = .ok cexDocParsed ∧
      serializeQuestionSet cexDocParsed ≠ cexDoc := by
  refine ⟨by rfl, fun h => ?_⟩
  have hproj := congrArg qExplData h
  revert hproj
  decide

/-- **C4 (amended).**  Loading a valid document, serializing the parsed
result, and loading again yields the same `QuestionSet` as the first
load: `load(serialize(parse(doc))) = parse(doc)` (equality at the
document level holds only for already-canonical documents, as the
counterexample shows). -/
theorem claim_C4_roundtrip (doc : Json) (qs : QuestionSet)
    (h : parse_question_set doc = .ok qs) :
    parse_question_set (serializeQuestionSet qs) = .ok qs := by
  unfold parse_question_set at h
  split at h
  · next kvs =>
    split at h
    · exact absurd h (by simp)
    · next sid hsid =>
      split at h
      · exact absurd h (by simp)
      · next title htitle =>
        split at h
        · exact absurd h (by simp)
        · next items hqraw =>
          split at h
          · exact absurd h (by simp)
          · next questions hqs =>
            cases h
            obtain ⟨-, hsidne⟩ := reqStr_ok _ _ _ _ hsid
            obtain ⟨-, htitlene⟩ := reqStr_ok _ _ _ _ htitle
            unfold parse_question_set serializeQuestionSet
            dsimp only
            rw [reqStr_of_lookup [("set_id", Json.str sid), ("title", Json.str title),
                ("questions", Json.arr (questions.map serializeQuestion))]
              "set_id" _ sid rfl hsidne]
            dsimp only
            rw [reqStr_of_lookup [("set_id", Json.str sid), ("title", Json.str title),
                ("questions", Json.arr (questions.map serializeQuestion))]
              "title" _ title rfl htitlene]
            dsimp only
            rw [show jrequire [("set_id", Json.str sid), ("title", Json.str title),
                ("questions", Json.arr (questions.map serializeQuestion))] "questions" =
              .ok (.arr (questions.map serializeQuestion)) from rfl]
            dsimp only
            rw [parseQuestions_roundtrip items 1 [] questions hqs 1]
        · exact absurd h (by simp)
  · exact absurd h (by simp)

/-- Witness for C4 at a concrete valid document. -/
theorem claim_C4_witness :
    parse_question_set cexDoc = .ok cexDocParsed ∧
    parse_question_set (serializeQuestionSet cexDocParsed) = .ok cexDocParsed :=
  ⟨by rfl, claim_C4_roundtrip cexDoc cexDocParsed (by rfl)⟩

end ExamSim
